import Mathlib

/-!
# QtColorPicker: popup grid layout, keyboard navigation and selection

A shallow embedding of `qtcolorpicker.cpp`.

* Widgets are owned through pointers in the source.  An item is identified here by its
  index in `items` (the pointer `items.at(i)`); the "more" button is a separate widget.
* `widgetAt` (a map from row to a map from column to a widget pointer, whose missing
  entries read as the null pointer) is a function into `Option Widget`.
* `QGridLayout` is the host toolkit's layout: a new layout reports one row and one
  column, and `addWidget(w, row, col)` grows the reported extents to include the cell.
* All row / column quantities of the source are `int`s that stay non-negative
  (every decrement is guarded by `> 0`, and `columnCount() - 1`, `rowCount() - 1` are
  taken of counts that are at least one), so they are natural numbers here.
  The configured column count `cols` can be `-1` or any other `int`; it is an `Int`.
* The automatic column count `(int) ceil(sqrt((float) n))` has two readings: with the
  exact square root (`ceilSqrt`, used by `regenerateGrid`) and in single precision
  (`ceilSqrtFloat32`, used by `regenerateGridFloat32`). They agree up to `2 ^ 24`
  entries; every result on `regenerateGrid` that does not fix `cols = -1` covers both.
* Painting, style sheets, focus rectangles and geometry are not modelled.
-/

namespace QtPublicCtrl

/-! ## Data model -/

/-- A colour value: a validity flag and the packed channels.  `QColor()` is invalid. -/
structure QColor where
  valid : Bool
  rgba : Nat
deriving DecidableEq, Repr

/-- The default-constructed colour `QColor()`, which is invalid. -/
def QColor.invalid : QColor := { valid := false, rgba := 0 }

/-- The source's `QColor::isValid()`. -/
def QColor.isValid (c : QColor) : Bool := c.valid

/-- A valid opaque colour from its red, green and blue channels. -/
def QColor.rgb (r g b : Nat) : QColor :=
  { valid := true, rgba := ((255 * 256 + r) * 256 + g) * 256 + b }

/-- The colour `Qt::black`. -/
def black : QColor := QColor.rgb 0 0 0
/-- The colour `Qt::white`. -/
def white : QColor := QColor.rgb 255 255 255
/-- The colour `Qt::red`. -/
def red : QColor := QColor.rgb 255 0 0
/-- The colour `Qt::darkRed`. -/
def darkRed : QColor := QColor.rgb 128 0 0

/-- One swatch of the grid: `ColorPickerItem` with its colour `c`, text `t` and
selection flag `sel` (constructed with `sel(false)`). -/
structure ColorPickerItem where
  c : QColor
  t : String
  sel : Bool
deriving DecidableEq, Repr

/-- A control that can sit in a grid cell: the item `items.at(i)` or the "more" button. -/
inductive Widget where
  | item (i : Nat)
  | more
deriving DecidableEq, Repr

/-- The part of `QGridLayout` the source reads: the widgets in the order they were
added (`itemAt`), `rowCount()` and `columnCount()`. -/
structure QGridLayout where
  widgets : List Widget
  rowCount : Nat
  columnCount : Nat
deriving DecidableEq, Repr

/-- A freshly constructed `QGridLayout`: no widget, one row, one column. -/
def QGridLayout.new : QGridLayout := { widgets := [], rowCount := 1, columnCount := 1 }

/-- The call `grid->addWidget(w, row, col)`: the layout expands to contain the cell. -/
def QGridLayout.addWidget (g : QGridLayout) (w : Widget) (row col : Nat) : QGridLayout :=
  { widgets := g.widgets ++ [w],
    rowCount := max g.rowCount (row + 1),
    columnCount := max g.columnCount (col + 1) }

/-- The state of `ColorPickerPopup`. `moreButton` is true when the pointer is non-null;
`shown` is the visibility that `show()` and `hide()` toggle. -/
structure ColorPickerPopup where
  cols : Int
  moreButton : Bool
  isPopup : Bool
  items : List ColorPickerItem
  lastSel : QColor
  widgetAt : Nat → Nat → Option Widget
  grid : QGridLayout
  shown : Bool

/-! ## Grid layout -/

/-- The search behind `ceilSqrt`: from candidate `k`, with `fuel` candidates left to
try, the first `k` whose square reaches `n`. -/
def ceilSqrtLoop (n : Nat) : Nat → Nat → Nat
  | 0, k => k
  | fuel + 1, k => if n ≤ k * k then k else ceilSqrtLoop n fuel (k + 1)

/-- The value of `(int) ceil(sqrt((float) n))` with the square root taken exactly,
computed by counting up from zero to the first number whose square reaches `n`
(`n` steps always suffice). The single-precision value is `ceilSqrtFloat32`; the two
agree for `n` up to `2 ^ 24` and differ beyond. -/
def ceilSqrt (n : Nat) : Nat := ceilSqrtLoop n n 0

/-- The local `columns` of `regenerateGrid`: `cols`, or the computed count when
`cols == -1`. -/
def gridColumns (cols : Int) (count : Nat) : Int :=
  if cols = -1 then (ceilSqrt count : Int) else cols

/-- The assignment `widgetAt[row][col] = w`. -/
def setWidgetAt (f : Nat → Nat → Option Widget) (row col : Nat) (w : Widget) :
    Nat → Nat → Option Widget :=
  fun r k => if r = row ∧ k = col then some w else f r k

/-- The loop variables of `regenerateGrid`. -/
structure GridCursor where
  widgetAt : Nat → Nat → Option Widget
  grid : QGridLayout
  crow : Nat
  ccol : Nat

/-- The empty map and fresh layout `regenerateGrid` starts from, with
`ccol = 0, crow = 0`. -/
def GridCursor.start : GridCursor :=
  { widgetAt := fun _ _ => none, grid := QGridLayout.new, crow := 0, ccol := 0 }

/-- One iteration of the placement loop for the item of index `i` (never null):
store it at `(crow, ccol)`, advance `ccol`, and wrap when `ccol == columns`. -/
def placeItem (columns : Int) (i : Nat) (s : GridCursor) : GridCursor :=
  let widgetAt1 := setWidgetAt s.widgetAt s.crow s.ccol (Widget.item i)
  let grid1 := s.grid.addWidget (Widget.item i) s.crow s.ccol
  let ccol1 := s.ccol + 1
  if (ccol1 : Int) = columns then
    { widgetAt := widgetAt1, grid := grid1, crow := s.crow + 1, ccol := 0 }
  else
    { widgetAt := widgetAt1, grid := grid1, crow := s.crow, ccol := ccol1 }

/-- The loop `for (int i = 0; i < items.size(); ++i)` of `regenerateGrid`, run on the
items that remain, `i` being the index of the first of them. -/
def placeItems (columns : Int) : List ColorPickerItem → Nat → GridCursor → GridCursor
  | [], _, s => s
  | _ :: rest, i, s => placeItems columns rest (i + 1) (placeItem columns i s)

/-- The trailing `if (moreButton)` of `regenerateGrid`: the button goes to the cell
the loop stopped at. -/
def placeMore (moreButton : Bool) (s : GridCursor) : GridCursor :=
  if moreButton then
    { s with
      widgetAt := setWidgetAt s.widgetAt s.crow s.ccol Widget.more,
      grid := s.grid.addWidget Widget.more s.crow s.ccol }
  else s

/-- The source's `ColorPickerPopup::regenerateGrid`. -/
def ColorPickerPopup.regenerateGrid (p : ColorPickerPopup) : ColorPickerPopup :=
  let columns := gridColumns p.cols p.items.length
  let s := placeMore p.moreButton (placeItems columns p.items 0 GridCursor.start)
  { p with widgetAt := s.widgetAt, grid := s.grid }

/-- The constructor of `ColorPickerPopup`: `width` columns, the "more" button when
`withColorDialog`, no item, `lastSel` default-constructed, hidden. `isPopup` is false
exactly when the window flags are `Qt::Widget`. -/
def ColorPickerPopup.new (width : Int) (withColorDialog : Bool) (isPopup : Bool) :
    ColorPickerPopup :=
  ColorPickerPopup.regenerateGrid
    { cols := width, moreButton := withColorDialog, isPopup := isPopup, items := [],
      lastSel := QColor.invalid, widgetAt := fun _ _ => none, grid := QGridLayout.new,
      shown := false }

/-- The column at which `regenerateGrid` wraps rows: `columns` when it is positive;
otherwise `ccol == columns` never holds and all `count` items stay in row 0, as with
any wrap column beyond `count`. -/
def wrapColumn (columns : Int) (count : Nat) : Nat :=
  if 1 ≤ columns then columns.toNat else count + 1

/-- The state of the placement loop once the items of index below `j` are placed,
rows wrapping at column `c`. -/
def Placed (c j : Nat) (s : GridCursor) : Prop :=
  s.ccol < c ∧ s.crow * c + s.ccol = j
  ∧ (∀ r k, s.widgetAt r k =
      if k < c ∧ r * c + k < j then some (Widget.item (r * c + k)) else none)
  ∧ s.grid.rowCount = (if j = 0 then 1 else if s.ccol = 0 then s.crow else s.crow + 1)
  ∧ s.grid.columnCount = (if j = 0 then 1 else if s.crow = 0 then s.ccol else c)
  ∧ s.grid.widgets = (List.range j).map Widget.item

/-- The number of controls in the grid: the items, and the "more" button if present. -/
def widgetCount (p : ColorPickerPopup) : Nat :=
  p.items.length + (if p.moreButton then 1 else 0)

/-- A grid of `m` controls filled left to right in rows of `c` cells: which cells are
occupied, and what the layout reports as its extents. -/
def GridShape (p : ColorPickerPopup) (c m : Nat) : Prop :=
  1 ≤ c
  ∧ (∀ r k, (p.widgetAt r k).isSome ↔ (k < c ∧ r * c + k < m))
  ∧ 1 ≤ p.grid.rowCount
  ∧ (∀ r, 1 ≤ r → (r < p.grid.rowCount ↔ r * c < m))
  ∧ p.grid.columnCount = max 1 (min m c)

/-- Whether a cell holds a colour entry (a `ColorPickerItem`). -/
def isItem : Option Widget → Bool
  | some (Widget.item _) => true
  | _ => false

/-- The number of rows of the layout in which some cell holds a colour entry. -/
def entryRows (p : ColorPickerPopup) : Nat :=
  ((List.range p.grid.rowCount).filter
    (fun r => (List.range p.grid.columnCount).any (fun k => isItem (p.widgetAt r k)))).length

/-! ## Items: lookup, selection, insertion -/

/-- The loop of `ColorPickerPopup::find`: the index of the first item whose colour is
`col`, or `none` for the null pointer. -/
def findItem (col : QColor) : List ColorPickerItem → Option Nat
  | [] => none
  | x :: xs => if x.c = col then some 0 else (findItem col xs).map (· + 1)

/-- The source's `ColorPickerPopup::find`. -/
def ColorPickerPopup.find (p : ColorPickerPopup) (col : QColor) : Option Nat :=
  findItem col p.items

/-- The source's `ColorPickerPopup::lastSelected`. -/
def ColorPickerPopup.lastSelected (p : ColorPickerPopup) : QColor := p.lastSel

/-- The call `items.at(i)->setSelected(b)`. -/
def setSelectedAt : List ColorPickerItem → Nat → Bool → List ColorPickerItem
  | [], _, _ => []
  | x :: xs, 0, b => { x with sel := b } :: xs
  | x :: xs, i + 1, b => x :: setSelectedAt xs i b

/-- The toolkit's `QList::insert(i, x)`: a position at or below zero prepends, one at
or beyond the size appends. -/
def qlistInsert (i : Int) (x : ColorPickerItem) (l : List ColorPickerItem) :
    List ColorPickerItem :=
  if i ≤ 0 then x :: l
  else if (l.length : Int) ≤ i then l ++ [x]
  else l.take i.toNat ++ x :: l.drop i.toNat

/-- The source's `ColorPickerPopup::insertColor`. -/
def ColorPickerPopup.insertColor (p : ColorPickerPopup) (col : QColor) (text : String)
    (index : Int) : ColorPickerPopup :=
  let existingItem := p.find col
  let lastSelectedItem := p.find p.lastSelected
  match existingItem with
  | some e =>
    let items1 :=
      match lastSelectedItem with
      | some l => if e ≠ l then setSelectedAt p.items l false else p.items
      | none => p.items
    { p with items := setSelectedAt items1 e true }
  | none =>
    let item : ColorPickerItem := { c := col, t := text, sel := false }
    let index1 : Int := if index = -1 then (p.items.length : Int) else index
    match lastSelectedItem with
    | some l =>
      ColorPickerPopup.regenerateGrid
        { p with items := qlistInsert index1 item (setSelectedAt p.items l false) }
    | none =>
      ColorPickerPopup.regenerateGrid
        { p with items := qlistInsert index1 { item with sel := true } p.items,
                 lastSel := col }

/-- The colour and text of an item: what identifies the entry, apart from its flag. -/
def entryKey (x : ColorPickerItem) : QColor × String := (x.c, x.t)

/-- The number of items whose selection flag is set. -/
def selectedCount (items : List ColorPickerItem) : Nat :=
  (items.filter (fun x => x.sel)).length

/-! ## Confirming a selection -/

/-- The source's `hide()` on the popup. -/
def ColorPickerPopup.hide (p : ColorPickerPopup) : ColorPickerPopup :=
  { p with shown := false }

/-- The loop `while ((layoutItem = grid->itemAt(i)) != 0)` shared by `updateSelected`
and the confirm branch of `keyPressEvent`: every `ColorPickerItem` of the layout
other than `keep` is deselected. -/
def deselectOthers (keep : Nat) : List Widget → List ColorPickerItem → List ColorPickerItem
  | [], items => items
  | Widget.item j :: ws, items =>
    deselectOthers keep ws (if j ≠ keep then setSelectedAt items j false else items)
  | Widget.more :: ws, items => deselectOthers keep ws items

/-- What an event handler of the popup leaves behind: the popup, the colours carried by
the `selected` signals it emitted, and the cell that holds the focus. -/
structure KeyResult where
  popup : ColorPickerPopup
  emitted : List QColor
  curRow : Nat
  curCol : Nat

/-- The source's `ColorPickerPopup::updateSelected`, with `sender()` the item of index
`sender`: the popup afterwards and the colours of the `selected` signals emitted. -/
def ColorPickerPopup.updateSelected (p : ColorPickerPopup) (sender : Nat) :
    ColorPickerPopup × List QColor :=
  let items1 := deselectOthers sender p.grid.widgets p.items
  match items1.get? sender with
  | some item =>
    let p1 := { p with items := items1, lastSel := item.c }
    (if p.isPopup then p1.hide else p1, [item.c])
  | none =>
    let p1 := { p with items := items1 }
    (if p.isPopup then p1.hide else p1, [])

/-- A click released on the item of index `i`: `ColorPickerItem::mouseReleaseEvent`
sets `sel` and emits `selected()`, which runs `updateSelected`. -/
def ColorPickerPopup.itemClicked (p : ColorPickerPopup) (i : Nat) :
    ColorPickerPopup × List QColor :=
  ColorPickerPopup.updateSelected { p with items := setSelectedAt p.items i true } i

/-! ## Keyboard navigation -/

/-- The keys `keyPressEvent` distinguishes; `other` is the `default` branch. -/
inductive Key where
  | Key_Left | Key_Right | Key_Up | Key_Down
  | Key_Space | Key_Return | Key_Enter | Key_Escape
  | other
deriving DecidableEq, Repr

/-- The scan `for (int i = 1; i < grid->columnCount(); ++i)` of the `Key_Down` branch,
from column `i` with `n` columns left to look at: the first column of `row` whose
cell is null, where the loop breaks. -/
def scanFree (widgetAt : Nat → Nat → Option Widget) (row : Nat) : Nat → Nat → Option Nat
  | _, 0 => none
  | i, n + 1 =>
    if (widgetAt row i).isNone then some i else scanFree widgetAt row (i + 1) n

/-- The cell that the arrow-key branches of `keyPressEvent` compute from the cell
`(curRow, curCol)` holding the focus; other keys leave the cell as it is. -/
def moveCursor (p : ColorPickerPopup) (key : Key) (curRow curCol : Nat) : Nat × Nat :=
  match key with
  | Key.Key_Left =>
    if curCol > 0 then (curRow, curCol - 1)
    else if curRow > 0 then (curRow - 1, p.grid.columnCount - 1)
    else (curRow, curCol)
  | Key.Key_Right =>
    if curCol < p.grid.columnCount - 1 ∧ (p.widgetAt curRow (curCol + 1)).isSome then
      (curRow, curCol + 1)
    else if curRow < p.grid.rowCount - 1 then (curRow + 1, 0)
    else (curRow, curCol)
  | Key.Key_Up =>
    if curRow > 0 then (curRow - 1, curCol) else (curRow, 0)
  | Key.Key_Down =>
    if curRow < p.grid.rowCount - 1 then
      if (p.widgetAt (curRow + 1) curCol).isSome then (curRow + 1, curCol)
      else
        match scanFree p.widgetAt (curRow + 1) 1 (p.grid.columnCount - 1) with
        | some i => (curRow + 1, i - 1)
        | none => (curRow, curCol)
    else (curRow, curCol)
  | _ => (curRow, curCol)

/-- The confirm branch (`Key_Space`, `Key_Return`, `Key_Enter`) of `keyPressEvent` on
the cell `(curRow, curCol)`. Only a `ColorPickerItem` is acted on: the "more" button
is a `QToolButton`, so neither `inherits` test of the source holds for it. -/
def confirmCell (p : ColorPickerPopup) (curRow curCol : Nat) :
    ColorPickerPopup × List QColor :=
  match p.widgetAt curRow curCol with
  | some (Widget.item i) =>
    let items1 := deselectOthers i p.grid.widgets (setSelectedAt p.items i true)
    match items1.get? i with
    | some wi =>
      let p1 := { p with items := items1, lastSel := wi.c }
      (if p.isPopup then p1.hide else p1, [wi.c])
    | none => (p, [])
  | _ => (p, [])

/-- The source's `ColorPickerPopup::keyPressEvent`, entered with the focus on the cell
`(curRow, curCol)` that its opening scan finds; `curRow`, `curCol` of the result are
the cell that the closing `widgetAt[curRow][curCol]->setFocus()` addresses. -/
def ColorPickerPopup.keyPressEvent (p : ColorPickerPopup) (key : Key)
    (curRow curCol : Nat) : KeyResult :=
  match key with
  | Key.Key_Space | Key.Key_Return | Key.Key_Enter =>
    { popup := (confirmCell p curRow curCol).1, emitted := (confirmCell p curRow curCol).2,
      curRow := curRow, curCol := curCol }
  | Key.Key_Escape =>
    { popup := if p.isPopup then p.hide else p, emitted := [],
      curRow := curRow, curCol := curCol }
  | k =>
    { popup := p, emitted := [],
      curRow := (moveCursor p k curRow curCol).1, curCol := (moveCursor p k curRow curCol).2 }

/-! ## The button -/

/-- The state of `QtColorPicker` that the operations below read or write. -/
structure QtColorPicker where
  popup : ColorPickerPopup
  col : QColor
  firstInserted : Bool
  withColorDialog : Bool

/-- The constructor of `QtColorPicker`; `isPopup` stands for the window flags the
popup is created with. -/
def QtColorPicker.new (cols : Int) (enableColorDialog : Bool) (isPopup : Bool) :
    QtColorPicker :=
  { popup := ColorPickerPopup.new cols enableColorDialog isPopup, col := black,
    firstInserted := false, withColorDialog := enableColorDialog }

/-- The source's `QtColorPicker::currentColor`. -/
def QtColorPicker.currentColor (k : QtColorPicker) : QColor := k.col

/-- The source's `QtColorPicker::insertColor`. -/
def QtColorPicker.insertColor (k : QtColorPicker) (color : QColor) (text : String)
    (index : Int) : QtColorPicker :=
  let popup1 := k.popup.insertColor color text index
  if !k.firstInserted then
    { k with popup := popup1, col := color, firstInserted := true }
  else
    { k with popup := popup1 }

/-- The source's `QtColorPicker::setCurrentColor`: the picker afterwards and the
colours carried by the `colorChanged` signals emitted. The inner `insertColor` is
called with its default position `-1`. -/
def QtColorPicker.setCurrentColor (k : QtColorPicker) (color : QColor) :
    QtColorPicker × List QColor :=
  if k.col = color ∨ ¬ color.isValid then (k, [])
  else
    let k1 :=
      match k.popup.find color with
      | some _ => k
      | none => k.insertColor color "" (-1)
    let item := k1.popup.find color
    let popup2 := k1.popup.hide
    match item with
    | some i =>
      ({ k1 with col := color,
                 popup := { popup2 with items := setSelectedAt popup2.items i true } },
        [color])
    | none => ({ k1 with col := color, popup := popup2 }, [color])

/-- The popup's `selected(color)` signals delivered, in order, to the connected slot
`setCurrentColor`. -/
def QtColorPicker.deliver (k : QtColorPicker) : List QColor → QtColorPicker × List QColor
  | [] => (k, [])
  | c :: cs =>
    let r1 := k.setCurrentColor c
    let r2 := QtColorPicker.deliver r1.1 cs
    (r2.1, r1.2 ++ r2.2)

/-- The insert / select operations on a bare popup. -/
inductive PopupOp where
  | insertColor (col : QColor) (text : String) (index : Int)
  | confirmKey (curRow curCol : Nat)
  | click (i : Nat)

/-- One operation applied to a popup. -/
def PopupOp.apply (p : ColorPickerPopup) : PopupOp → ColorPickerPopup
  | PopupOp.insertColor col text index => p.insertColor col text index
  | PopupOp.confirmKey r c => (p.keyPressEvent Key.Key_Return r c).popup
  | PopupOp.click i => (p.itemClicked i).1

/-- A sequence of operations applied to a popup, first to last. -/
def runPopup (p : ColorPickerPopup) (ops : List PopupOp) : ColorPickerPopup :=
  ops.foldl PopupOp.apply p

/-- The insert / select operations on a picker. -/
inductive PickerOp where
  | insertColor (col : QColor) (text : String) (index : Int)
  | setCurrentColor (col : QColor)
  | confirmKey (curRow curCol : Nat)
  | click (i : Nat)

/-- One operation applied to a picker; a confirm on the popup reaches the picker
through the `selected` signal. -/
def PickerOp.apply (k : QtColorPicker) : PickerOp → QtColorPicker
  | PickerOp.insertColor col text index => k.insertColor col text index
  | PickerOp.setCurrentColor col => (k.setCurrentColor col).1
  | PickerOp.confirmKey r c =>
    let res := k.popup.keyPressEvent Key.Key_Return r c
    (QtColorPicker.deliver { k with popup := res.popup } res.emitted).1
  | PickerOp.click i =>
    let res := k.popup.itemClicked i
    (QtColorPicker.deliver { k with popup := res.1 } res.2).1

/-- A sequence of operations applied to a picker, first to last. -/
def runPicker (k : QtColorPicker) (ops : List PickerOp) : QtColorPicker :=
  ops.foldl PickerOp.apply k

/-- The popup with the entries black, white, red in two columns. -/
def threeInTwo : ColorPickerPopup :=
  runPopup (ColorPickerPopup.new 2 false true)
    [PopupOp.insertColor black "Black" (-1), PopupOp.insertColor white "White" (-1),
     PopupOp.insertColor red "Red" (-1)]

/-- The picker with the entries black and white; black, inserted first, is current. -/
def blackWhitePicker : QtColorPicker :=
  runPicker (QtColorPicker.new (-1) false true)
    [PickerOp.insertColor black "Black" (-1), PickerOp.insertColor white "White" (-1)]

/-! ## The standard colours and `getColor` -/

/-- The colour `Qt::green`. -/
def green : QColor := QColor.rgb 0 255 0
/-- The colour `Qt::darkGreen`. -/
def darkGreen : QColor := QColor.rgb 0 128 0
/-- The colour `Qt::blue`. -/
def blue : QColor := QColor.rgb 0 0 255
/-- The colour `Qt::darkBlue`. -/
def darkBlue : QColor := QColor.rgb 0 0 128
/-- The colour `Qt::cyan`. -/
def cyan : QColor := QColor.rgb 0 255 255
/-- The colour `Qt::darkCyan`. -/
def darkCyan : QColor := QColor.rgb 0 128 128
/-- The colour `Qt::magenta`. -/
def magenta : QColor := QColor.rgb 255 0 255
/-- The colour `Qt::darkMagenta`. -/
def darkMagenta : QColor := QColor.rgb 128 0 128
/-- The colour `Qt::yellow`. -/
def yellow : QColor := QColor.rgb 255 255 0
/-- The colour `Qt::darkYellow`. -/
def darkYellow : QColor := QColor.rgb 128 128 0
/-- The colour `Qt::gray`. -/
def gray : QColor := QColor.rgb 160 160 164
/-- The colour `Qt::darkGray`. -/
def darkGray : QColor := QColor.rgb 128 128 128
/-- The colour `Qt::lightGray`. -/
def lightGray : QColor := QColor.rgb 192 192 192

/-- A run of `ColorPickerPopup::insertColor` calls, first to last, each with its
colour, text and position. -/
def insertAll (p : ColorPickerPopup) (calls : List (QColor × String × Int)) :
    ColorPickerPopup :=
  calls.foldl (fun q a => q.insertColor a.1 a.2.1 a.2.2) p

/-- The popup that `QtColorPicker::getColor` builds before it shows it: automatic
columns and the seventeen standard colours at positions 0 to 16. `isPopup` stands
for the window flags the constructor defaults to. -/
def getColorPopup (allowCustomColors isPopup : Bool) : ColorPickerPopup :=
  insertAll (ColorPickerPopup.new (-1) allowCustomColors isPopup)
    [(black, "Black", 0), (white, "White", 1), (red, "Red", 2), (darkRed, "Dark red", 3),
     (green, "Green", 4), (darkGreen, "Dark green", 5), (blue, "Blue", 6),
     (darkBlue, "Dark blue", 7), (cyan, "Cyan", 8), (darkCyan, "Dark cyan", 9),
     (magenta, "Magenta", 10), (darkMagenta, "Dark magenta", 11), (yellow, "Yellow", 12),
     (darkYellow, "Dark yellow", 13), (gray, "Gray", 14), (darkGray, "Dark gray", 15),
     (lightGray, "Light gray", 16)]

/-- The source's `show()` on the popup. -/
def ColorPickerPopup.show (p : ColorPickerPopup) : ColorPickerPopup :=
  { p with shown := true }

/-- The source's `ColorPickerPopup::mouseReleaseEvent`; `inside` tells whether
`rect()` contains the position of the event. -/
def ColorPickerPopup.mouseReleaseEvent (p : ColorPickerPopup) (inside : Bool) :
    ColorPickerPopup :=
  if !inside && p.isPopup then p.hide else p

/-- What the user can do while the popup runs its event loop: press a key with the
focus on a cell, click an item, or release the mouse inside or outside the popup. -/
inductive UserEvent where
  | key (k : Key) (curRow curCol : Nat)
  | clickItem (i : Nat)
  | mouseRelease (inside : Bool)

/-- The handler that one user event runs. -/
def UserEvent.apply (p : ColorPickerPopup) : UserEvent → ColorPickerPopup
  | UserEvent.key k r c => (p.keyPressEvent k r c).popup
  | UserEvent.clickItem i => (p.itemClicked i).1
  | UserEvent.mouseRelease inside => p.mouseReleaseEvent inside

/-- The event loop of `exec`: events are handled in order until one hides the popup
(`hideEvent` exits the loop) or none is left. -/
def eventLoop : ColorPickerPopup → List UserEvent → ColorPickerPopup
  | p, [] => p
  | p, e :: es => if (e.apply p).shown then eventLoop (e.apply p) es else e.apply p

/-- The source's `ColorPickerPopup::exec`: `show()`, then the event loop. -/
def ColorPickerPopup.exec (p : ColorPickerPopup) (events : List UserEvent) :
    ColorPickerPopup :=
  eventLoop p.show events

/-- The source's `QtColorPicker::getColor`, `events` being what the user does while
the popup is executing: the value of `popup.lastSelected()` after `popup.exec()`. -/
def getColor (allowCustomColors isPopup : Bool) (events : List UserEvent) : QColor :=
  ((getColorPopup allowCustomColors isPopup).exec events).lastSelected

/-! ## Placing the popup -/

/-- A `QRect` of the toolkit: `right()` is `left() + width() - 1` and `bottom()` is
`top() + height() - 1`. -/
structure QRect where
  left : Int
  top : Int
  width : Int
  height : Int
deriving DecidableEq, Repr

/-- The toolkit's `QRect::right()`. -/
def QRect.right (r : QRect) : Int := r.left + r.width - 1

/-- The toolkit's `QRect::bottom()`. -/
def QRect.bottom (r : QRect) : Int := r.top + r.height - 1

/-- A `QPoint` of the toolkit. -/
structure QPoint where
  x : Int
  y : Int
deriving DecidableEq, Repr

/-- A `QSize` of the toolkit. -/
structure QSize where
  width : Int
  height : Int
deriving DecidableEq, Repr

/-- The position that `QtColorPicker::buttonPressed` passes to `popup->move`, from the
desktop geometry, the global position `pos` of the button's bottom left corner and
the popup's `sizeHint()`. The sums and differences are those of the integers: the
coordinates are taken small enough for the source's `int` arithmetic not to overflow. -/
def buttonPressedPos (desktop : QRect) (pos : QPoint) (sizeHint : QSize) : QPoint :=
  let pos1 : QPoint := if pos.x < desktop.left then { pos with x := desktop.left } else pos
  let pos2 : QPoint := if pos1.y < desktop.top then { pos1 with y := desktop.top } else pos1
  let pos3 : QPoint :=
    if pos2.x + sizeHint.width > desktop.width then
      { pos2 with x := desktop.width - sizeHint.width }
    else pos2
  let pos4 : QPoint :=
    if pos3.y + sizeHint.height > desktop.bottom then
      { pos3 with y := desktop.bottom - sizeHint.height }
    else pos3
  pos4

/-- Whether a rectangle of the given size placed with its top left corner at `corner`
lies inside `desktop`. -/
def insideDesktop (desktop : QRect) (corner : QPoint) (size : QSize) : Prop :=
  desktop.left ≤ corner.x ∧ desktop.top ≤ corner.y
  ∧ corner.x + size.width - 1 ≤ desktop.right ∧ corner.y + size.height - 1 ≤ desktop.bottom

/-- The outcome of confirming the entry `e` of index `i`: the entries are the same
entries, `e` is the only one selected, its colour is the last selected one and the
only one emitted, and the popup is hidden exactly in popup mode. -/
def Confirmed (before : ColorPickerPopup) (i : Nat) (e : ColorPickerItem)
    (after : ColorPickerPopup) (emitted : List QColor) : Prop :=
  after.items.map entryKey = before.items.map entryKey
  ∧ (∀ j x, after.items[j]? = some x → (x.sel = true ↔ j = i))
  ∧ (∃ x, after.items[i]? = some x ∧ x.c = e.c ∧ x.t = e.t)
  ∧ after.lastSelected = e.c
  ∧ emitted = [e.c]
  ∧ (before.isPopup = true → after.shown = false)
  ∧ (before.isPopup = false → after.shown = before.shown)

/-- The stored `widgetAt` and layout are those `regenerateGrid` computes from the
current items: the state every operation of the popup leaves behind. -/
def GridCurrent (q : ColorPickerPopup) : Prop :=
  q.widgetAt = q.regenerateGrid.widgetAt ∧ q.grid = q.regenerateGrid.grid

/-! ## The column count in single precision -/

/-- The loop behind `bitLength`: halve until zero, counting the steps. -/
def bitLengthLoop : Nat → Nat → Nat
  | 0, _ => 0
  | fuel + 1, n => if n = 0 then 0 else bitLengthLoop fuel (n / 2) + 1

/-- The number of binary digits of `n` (zero for zero). -/
def bitLength (n : Nat) : Nat := bitLengthLoop n n

/-- The conversion `(float) n` of a non-negative `int`: `n` rounded to 24 significant
binary digits, to nearest with ties to even. Values of at most 24 digits are kept. -/
def toFloat32 (n : Nat) : Nat :=
  if bitLength n ≤ 24 then n
  else
    let e := bitLength n - 24
    let q := n / 2 ^ e
    let rem := n % 2 ^ e
    let half := 2 ^ (e - 1)
    if half < rem ∨ (rem = half ∧ q % 2 = 1) then (q + 1) * 2 ^ e else q * 2 ^ e

/-- The value of `(int) ceil(sqrt((float) n))` in single precision, the square root
being rounded to nearest. With `x = (float) n`: an exact root is returned as it is;
otherwise the root lies strictly between its floor `s` and `s + 1`, and the result is
`s` when the root is nearer to `s` than half the spacing `1 / 2 ^ (24 - bitLength s)`
of the single-precision numbers above `s` (the rounded root is then `s`), else
`s + 1`. -/
def ceilSqrtFloat32 (n : Nat) : Nat :=
  let x := toFloat32 n
  let c := ceilSqrt x
  if c * c = x then c
  else
    let s := c - 1
    let k := 2 ^ (25 - bitLength s)
    if x * (k * k) < (s * k + 1) * (s * k + 1) then s else c

/-- The local `columns` of `regenerateGrid` as single-precision arithmetic computes
it. -/
def gridColumnsFloat32 (cols : Int) (count : Nat) : Int :=
  if cols = -1 then (ceilSqrtFloat32 count : Int) else cols

/-- The source's `ColorPickerPopup::regenerateGrid` with the column count computed
in single precision. -/
def ColorPickerPopup.regenerateGridFloat32 (p : ColorPickerPopup) : ColorPickerPopup :=
  let columns := gridColumnsFloat32 p.cols p.items.length
  let s := placeMore p.moreButton (placeItems columns p.items 0 GridCursor.start)
  { p with widgetAt := s.widgetAt, grid := s.grid }

/-- A list of `n` entries with pairwise distinct colours. -/
def manyItems : Nat → List ColorPickerItem
  | 0 => []
  | n + 1 => { c := { valid := true, rgba := n }, t := "", sel := false } :: manyItems n

/-- A popup with automatic columns, no "more" button and `n` entries. -/
def manyPopup (n : Nat) : ColorPickerPopup :=
  { cols := -1, moreButton := false, isPopup := true, items := manyItems n,
    lastSel := QColor.invalid, widgetAt := fun _ _ => none, grid := QGridLayout.new,
    shown := false }

/-! ## Lemmas on the item list -/

theorem setSelectedAt_length (l : List ColorPickerItem) (i : Nat) (b : Bool) :
    (setSelectedAt l i b).length = l.length := by
  induction l generalizing i with
  | nil => simp [setSelectedAt]
  | cons x xs ih => cases i <;> simp [setSelectedAt, ih]

theorem setSelectedAt_map_key (l : List ColorPickerItem) (i : Nat) (b : Bool) :
    (setSelectedAt l i b).map entryKey = l.map entryKey := by
  induction l generalizing i with
  | nil => simp [setSelectedAt]
  | cons x xs ih => cases i <;> simp [setSelectedAt, ih, entryKey]

theorem setSelectedAt_map_c (l : List ColorPickerItem) (i : Nat) (b : Bool) :
    (setSelectedAt l i b).map (fun x => x.c) = l.map (fun x => x.c) := by
  induction l generalizing i with
  | nil => simp [setSelectedAt]
  | cons x xs ih => cases i <;> simp [setSelectedAt, ih]

theorem findItem_setSelectedAt (col : QColor) (l : List ColorPickerItem) (i : Nat) (b : Bool) :
    findItem col (setSelectedAt l i b) = findItem col l := by
  induction l generalizing i with
  | nil => simp [setSelectedAt]
  | cons x xs ih => cases i <;> simp [setSelectedAt, findItem, ih]

theorem findItem_isSome_of_mem (col : QColor) (l : List ColorPickerItem)
    (h : ∃ x ∈ l, x.c = col) : ∃ e, findItem col l = some e := by
  induction l with
  | nil => simp at h
  | cons y ys ih =>
    by_cases hy : y.c = col
    · exact ⟨0, by simp [findItem, hy]⟩
    · obtain ⟨x, hx, hxc⟩ := h
      rcases List.mem_cons.mp hx with rfl | hx'
      · exact absurd hxc hy
      · obtain ⟨e, he⟩ := ih ⟨x, hx', hxc⟩
        exact ⟨e + 1, by simp [findItem, hy, he]⟩

theorem findItem_eq_none (col : QColor) (l : List ColorPickerItem)
    (h : ∀ x ∈ l, x.c ≠ col) : findItem col l = none := by
  induction l with
  | nil => rfl
  | cons y ys ih =>
    have hy : y.c ≠ col := h y (List.mem_cons_self _ _)
    have := ih (fun x hx => h x (List.mem_cons_of_mem _ hx))
    simp [findItem, hy, this]

theorem findItem_get (col : QColor) (l : List ColorPickerItem) (e : Nat)
    (h : findItem col l = some e) : ∃ x, l[e]? = some x ∧ x.c = col := by
  induction l generalizing e with
  | nil => simp [findItem] at h
  | cons y ys ih =>
    by_cases hy : y.c = col
    · simp [findItem, hy] at h
      subst h
      exact ⟨y, by simp, hy⟩
    · simp [findItem, hy] at h
      obtain ⟨a, ha, rfl⟩ := h
      obtain ⟨x, hx, hxc⟩ := ih a ha
      exact ⟨x, by simpa using hx, hxc⟩

theorem setSelectedAt_get (l : List ColorPickerItem) (e : Nat) (b : Bool) (x : ColorPickerItem)
    (h : l[e]? = some x) : (setSelectedAt l e b)[e]? = some { x with sel := b } := by
  induction l generalizing e with
  | nil => simp at h
  | cons y ys ih =>
    cases e with
    | zero => simp at h; subst h; simp [setSelectedAt]
    | succ n => simp at h; simpa [setSelectedAt] using ih n h

theorem setSelectedAt_true_of_nodup (col : QColor) (l : List ColorPickerItem) (e : Nat)
    (hn : (l.map (fun x => x.c)).Nodup) (h : findItem col l = some e) :
    ∀ x ∈ setSelectedAt l e true, x.c = col → x.sel = true := by
  induction l generalizing e with
  | nil => simp [findItem] at h
  | cons y ys ih =>
    have hn' := List.nodup_cons.mp hn
    by_cases hy : y.c = col
    · simp [findItem, hy] at h
      subst h
      intro x hx hxc
      simp only [setSelectedAt, List.mem_cons] at hx
      rcases hx with rfl | hx
      · rfl
      · exact absurd (List.mem_map.mpr ⟨x, hx, hxc.trans hy.symm⟩) hn'.1
    · simp [findItem, hy] at h
      obtain ⟨a, ha, rfl⟩ := h
      intro x hx hxc
      simp only [setSelectedAt, List.mem_cons] at hx
      rcases hx with rfl | hx
      · exact absurd hxc hy
      · exact ih a hn'.2 ha x hx hxc

/-! ## Selection claims -/

/-- C1. Evaluation of the source at a sequence that breaks "at most one entry is
selected": on a fresh popup, inserting black, white, then white and black again
leaves both entries selected; and on a fresh picker, inserting black and white and
then making white and black current does the same. -/
theorem selection_not_exclusive :
    selectedCount (runPopup (ColorPickerPopup.new (-1) false true)
      [PopupOp.insertColor black "Black" (-1), PopupOp.insertColor white "White" (-1),
       PopupOp.insertColor white "White" (-1), PopupOp.insertColor black "Black" (-1)]).items = 2
    ∧ selectedCount (runPicker (QtColorPicker.new (-1) false true)
      [PickerOp.insertColor black "Black" (-1), PickerOp.insertColor white "White" (-1),
       PickerOp.setCurrentColor white, PickerOp.setCurrentColor black]).popup.items = 2 := by
  constructor <;> decide

/-- C2. Inserting a colour that some entry already has keeps the entries (colour and
text, in order) and their number, keeps the colours pairwise distinct, and leaves the
entry that `find` returns for the colour selected; with distinct colours that is every
entry of that colour. -/
theorem insertColor_duplicate (p : ColorPickerPopup) (c : QColor) (text : String)
    (index : Int) (h : ∃ x ∈ p.items, x.c = c) :
    (p.insertColor c text index).items.map entryKey = p.items.map entryKey
    ∧ (p.insertColor c text index).items.length = p.items.length
    ∧ ((p.items.map (fun x => x.c)).Nodup →
        ((p.insertColor c text index).items.map (fun x => x.c)).Nodup)
    ∧ (∃ e x, p.find c = some e ∧ (p.insertColor c text index).items[e]? = some x
        ∧ x.c = c ∧ x.sel = true)
    ∧ ((p.items.map (fun x => x.c)).Nodup →
        ∀ x ∈ (p.insertColor c text index).items, x.c = c → x.sel = true) := by
  obtain ⟨e, he⟩ := findItem_isSome_of_mem c p.items h
  have hfind : p.find c = some e := he
  -- the list after the optional deselection of the last selected item
  obtain ⟨items1, hq, hkey, hcol, hf1⟩ :
      ∃ items1, (p.insertColor c text index).items = setSelectedAt items1 e true
        ∧ items1.map entryKey = p.items.map entryKey
        ∧ items1.map (fun x => x.c) = p.items.map (fun x => x.c)
        ∧ findItem c items1 = some e := by
    unfold ColorPickerPopup.insertColor
    simp only [hfind]
    cases hl : p.find p.lastSelected with
    | none => exact ⟨p.items, rfl, rfl, rfl, he⟩
    | some l =>
      by_cases hel : e = l
      · exact ⟨p.items, by simp [hel], rfl, rfl, he⟩
      · exact ⟨setSelectedAt p.items l false, by simp [hel],
          setSelectedAt_map_key _ _ _, setSelectedAt_map_c _ _ _,
          by rw [findItem_setSelectedAt]; exact he⟩
  obtain ⟨x, hx, hxc⟩ := findItem_get c items1 e hf1
  refine ⟨?_, ?_, ?_, ?_, ?_⟩
  · rw [hq, setSelectedAt_map_key, hkey]
  · have := congrArg List.length hkey
    rw [hq, setSelectedAt_length]
    simpa using this
  · intro hn
    rw [hq, setSelectedAt_map_c, hcol]
    exact hn
  · exact ⟨e, { x with sel := true }, hfind, by rw [hq]; exact setSelectedAt_get _ _ _ _ hx,
      hxc, rfl⟩
  · intro hn
    rw [hq]
    exact setSelectedAt_true_of_nodup c items1 e (by rw [hcol]; exact hn) hf1

/-- C2 at a concrete popup: black, white, red inserted, then white inserted again. -/
theorem insertColor_duplicate_witness :
    (∃ x ∈ (runPopup (ColorPickerPopup.new 2 false true)
        [PopupOp.insertColor black "Black" (-1), PopupOp.insertColor white "White" (-1),
         PopupOp.insertColor red "Red" (-1)]).items, x.c = white)
    ∧ ∃ e x, (runPopup (ColorPickerPopup.new 2 false true)
        [PopupOp.insertColor black "Black" (-1), PopupOp.insertColor white "White" (-1),
         PopupOp.insertColor red "Red" (-1)]).find white = some e
      ∧ ((runPopup (ColorPickerPopup.new 2 false true)
        [PopupOp.insertColor black "Black" (-1), PopupOp.insertColor white "White" (-1),
         PopupOp.insertColor red "Red" (-1)]).insertColor white "again" 0).items[e]? = some x
      ∧ x.c = white ∧ x.sel = true :=
  ⟨⟨{ c := white, t := "White", sel := false }, by decide, rfl⟩,
   (insertColor_duplicate _ white "again" 0
      ⟨{ c := white, t := "White", sel := false }, by decide, rfl⟩).2.2.2.1⟩

/-! ## The automatic column count -/

theorem ceilSqrtLoop_spec (n fuel k : Nat) (hlow : ∀ j, j < k → j * j < n)
    (hfuel : n ≤ (k + fuel) * (k + fuel)) :
    n ≤ ceilSqrtLoop n fuel k * ceilSqrtLoop n fuel k
    ∧ ∀ j, j < ceilSqrtLoop n fuel k → j * j < n := by
  induction fuel generalizing k with
  | zero => exact ⟨by simpa [ceilSqrtLoop] using hfuel, by simpa [ceilSqrtLoop] using hlow⟩
  | succ fuel ih =>
    unfold ceilSqrtLoop
    by_cases hk : n ≤ k * k
    · rw [if_pos hk]
      exact ⟨hk, hlow⟩
    · rw [if_neg hk]
      apply ih
      · intro j hj
        rcases Nat.lt_succ_iff_lt_or_eq.mp hj with h | h
        · exact hlow j h
        · subst h
          omega
      · rw [show k + 1 + fuel = k + (fuel + 1) by omega]
        exact hfuel

theorem ceilSqrt_spec (n : Nat) :
    n ≤ ceilSqrt n * ceilSqrt n ∧ ∀ j, j < ceilSqrt n → j * j < n :=
  ceilSqrtLoop_spec n n 0 (fun j hj => absurd hj (Nat.not_lt_zero j))
    (by rw [Nat.zero_add]; exact Nat.le_mul_self n)

theorem ceilSqrt_sq_ge (n : Nat) : n ≤ ceilSqrt n * ceilSqrt n := (ceilSqrt_spec n).1

theorem ceilSqrt_le_of_sq_ge (n k : Nat) (h : n ≤ k * k) : ceilSqrt n ≤ k := by
  by_contra hlt
  push_neg at hlt
  have := (ceilSqrt_spec n).2 k hlt
  omega

theorem ceilSqrt_pred_sq_lt (n : Nat) (h : 0 < ceilSqrt n) :
    (ceilSqrt n - 1) * (ceilSqrt n - 1) < n := by
  by_contra hge
  push_neg at hge
  have := ceilSqrt_le_of_sq_ge n (ceilSqrt n - 1) hge
  omega

theorem mul_add_le_of_lt (a b c : Nat) (h : a < b) : a * c + c ≤ b * c := by
  have := Nat.mul_le_mul_right c (Nat.succ_le_of_lt h)
  rwa [Nat.succ_mul] at this

theorem placed_start (c : Nat) (hc : 1 ≤ c) : Placed c 0 GridCursor.start := by
  refine ⟨hc, by simp [GridCursor.start], ?_, ?_, ?_, ?_⟩ <;> simp [GridCursor.start, QGridLayout.new]

theorem placed_step (columns : Int) (c j : Nat) (s : GridCursor) (h : Placed c j s)
    (hw : ((s.ccol + 1 : Nat) : Int) = columns ↔ s.ccol + 1 = c) :
    Placed c (j + 1) (placeItem columns j s) := by
  obtain ⟨hlt, hj, hcell, hrow, hcol, hws⟩ := h
  have hcge : s.crow = 0 ∨ c ≤ s.crow * c := by
    rcases Nat.eq_zero_or_pos s.crow with h0 | hpos
    · exact Or.inl h0
    · have := mul_add_le_of_lt 0 s.crow c hpos
      exact Or.inr (by omega)
  have hcellNew : ∀ r k, setWidgetAt s.widgetAt s.crow s.ccol (Widget.item j) r k =
      if k < c ∧ r * c + k < j + 1 then some (Widget.item (r * c + k)) else none := by
    intro r k
    unfold setWidgetAt
    rw [hcell r k]
    rcases Nat.lt_trichotomy r s.crow with hr | hr | hr
    · have := mul_add_le_of_lt r s.crow c hr
      have hne : ¬ (r = s.crow ∧ k = s.ccol) := by omega
      rw [if_neg hne]
      by_cases hk : k < c
      · have h1 : r * c + k < j := by omega
        have h2 : r * c + k < j + 1 := by omega
        simp [hk, h1, h2]
      · simp [hk]
    · have hrc : r * c = s.crow * c := by rw [hr]
      by_cases hk : k = s.ccol
      · have h2 : r * c + k < j + 1 := by omega
        have h3 : r * c + k = j := by omega
        have h4 : k < c := by omega
        rw [if_pos ⟨hr, hk⟩, if_pos ⟨h4, h2⟩, h3]
      · have hne : ¬ (r = s.crow ∧ k = s.ccol) := by omega
        rw [if_neg hne]
        by_cases hk2 : k < s.ccol
        · have h1 : r * c + k < j := by omega
          have h2 : r * c + k < j + 1 := by omega
          have h3 : k < c := by omega
          simp [h3, h1, h2]
        · have h1 : ¬ (k < c ∧ r * c + k < j) := by omega
          have h2 : ¬ (k < c ∧ r * c + k < j + 1) := by omega
          rw [if_neg h1, if_neg h2]
    · have := mul_add_le_of_lt s.crow r c hr
      have hne : ¬ (r = s.crow ∧ k = s.ccol) := by omega
      have h1 : ¬ (k < c ∧ r * c + k < j) := by omega
      have h2 : ¬ (k < c ∧ r * c + k < j + 1) := by omega
      rw [if_neg hne, if_neg h1, if_neg h2]
  have hwsNew : (s.grid.addWidget (Widget.item j) s.crow s.ccol).widgets =
      (List.range (j + 1)).map Widget.item := by
    simp [QGridLayout.addWidget, hws, List.range_succ]
  unfold placeItem
  by_cases hwrap : s.ccol + 1 = c
  · rw [if_pos (hw.mpr hwrap)]
    refine ⟨?_, ?_, hcellNew, ?_, ?_, hwsNew⟩
    · show 0 < c
      omega
    · show (s.crow + 1) * c + 0 = j + 1
      rw [Nat.succ_mul]
      omega
    · dsimp only [QGridLayout.addWidget]
      rw [hrow]
      split_ifs <;> first | contradiction | omega
    · dsimp only [QGridLayout.addWidget]
      rw [hcol]
      split_ifs <;> first | contradiction | omega
  · rw [if_neg (fun hx => hwrap (hw.mp hx))]
    refine ⟨?_, ?_, hcellNew, ?_, ?_, hwsNew⟩
    · show s.ccol + 1 < c
      omega
    · show s.crow * c + (s.ccol + 1) = j + 1
      omega
    · dsimp only [QGridLayout.addWidget]
      rw [hrow]
      split_ifs <;> first | contradiction | omega
    · dsimp only [QGridLayout.addWidget]
      rw [hcol]
      split_ifs <;> first | contradiction | omega

theorem placed_loop (columns : Int) (c : Nat) (l : List ColorPickerItem) (j : Nat)
    (s : GridCursor) (h : Placed c j s)
    (hw : ∀ x : Nat, x < j + l.length → (((x + 1 : Nat) : Int) = columns ↔ x + 1 = c)) :
    Placed c (j + l.length) (placeItems columns l j s) := by
  induction l generalizing j s with
  | nil => simpa [placeItems] using h
  | cons y ys ih =>
    have hccol : s.ccol < j + (y :: ys).length := by
      have := h.2.1
      simp only [List.length_cons]
      omega
    have hstep := placed_step columns c j s h (hw s.ccol hccol)
    have := ih (j + 1) (placeItem columns j s) hstep (by
      intro x hx
      apply hw
      simp only [List.length_cons]
      omega)
    simp only [placeItems, List.length_cons]
    rw [show j + (ys.length + 1) = j + 1 + ys.length by omega]
    exact this

theorem wrapColumn_pos (columns : Int) (n : Nat) : 1 ≤ wrapColumn columns n := by
  unfold wrapColumn
  split <;> omega

theorem wrapColumn_test (columns : Int) (n x : Nat) (hx : x < n) :
    ((x + 1 : Nat) : Int) = columns ↔ x + 1 = wrapColumn columns n := by
  unfold wrapColumn
  split <;> omega

theorem placed_items (columns : Int) (l : List ColorPickerItem) :
    Placed (wrapColumn columns l.length) l.length (placeItems columns l 0 GridCursor.start) := by
  have := placed_loop columns (wrapColumn columns l.length) l 0 GridCursor.start
    (placed_start _ (wrapColumn_pos _ _))
    (fun x hx => wrapColumn_test columns l.length x (by omega))
  simpa using this

/-! ## The regenerated grid -/

theorem cell_unique (c r k r' k' : Nat) (hk : k < c) (hk' : k' < c)
    (h : r * c + k = r' * c + k') : r = r' ∧ k = k' := by
  rcases Nat.lt_trichotomy r r' with hr | hr | hr
  · have := mul_add_le_of_lt r r' c hr
    omega
  · have hrc : r * c = r' * c := by rw [hr]
    omega
  · have := mul_add_le_of_lt r' r c hr
    omega

theorem placeMore_cells (c n : Nat) (s : GridCursor) (h : Placed c n s) (b : Bool) (r k : Nat) :
    (placeMore b s).widgetAt r k =
      if k < c ∧ r * c + k < n then some (Widget.item (r * c + k))
      else if b = true ∧ k < c ∧ r * c + k = n then some Widget.more else none := by
  obtain ⟨hlt, hj, hcell, -, -, -⟩ := h
  unfold placeMore
  cases b with
  | false => simp [hcell r k]
  | true =>
    simp only [if_true, setWidgetAt, true_and]
    rw [hcell r k]
    by_cases hrk : r = s.crow ∧ k = s.ccol
    · have h1 : ¬ (k < c ∧ r * c + k < n) := by
        have hrc : r * c = s.crow * c := by rw [hrk.1]
        omega
      have h2 : k < c ∧ r * c + k = n := by
        have hrc : r * c = s.crow * c := by rw [hrk.1]
        omega
      rw [if_pos hrk, if_neg h1, if_pos h2]
    · have h2 : ¬ (k < c ∧ r * c + k = n) := by
        intro hx
        exact hrk (cell_unique c r k s.crow s.ccol hx.1 hlt (by omega))
      rw [if_neg hrk, if_neg h2]

theorem placeMore_rowCount (c n : Nat) (s : GridCursor) (h : Placed c n s) (b : Bool) :
    1 ≤ (placeMore b s).grid.rowCount
    ∧ ∀ r, 1 ≤ r →
        (r < (placeMore b s).grid.rowCount ↔ r * c < n + (if b = true then 1 else 0)) := by
  obtain ⟨hlt, hj, -, hrow, -, -⟩ := h
  have hrows : (placeMore b s).grid.rowCount =
      if b = true then max s.grid.rowCount (s.crow + 1) else s.grid.rowCount := by
    unfold placeMore
    cases b <;> simp [QGridLayout.addWidget]
  have h0 : s.crow = 0 ∨ c ≤ s.crow * c := by
    rcases Nat.eq_zero_or_pos s.crow with h0 | hpos
    · exact Or.inl h0
    · have := mul_add_le_of_lt 0 s.crow c hpos
      exact Or.inr (by omega)
  have hz : s.crow ≠ 0 ∨ s.crow * c = 0 := by
    rcases Nat.eq_zero_or_pos s.crow with hx | hx
    · exact Or.inr (by rw [hx, Nat.zero_mul])
    · exact Or.inl (by omega)
  rw [hrows, hrow]
  constructor
  · split_ifs <;> omega
  · intro r hr
    rcases Nat.lt_trichotomy r s.crow with hlt' | heq | hgt
    · have := mul_add_le_of_lt r s.crow c hlt'
      split_ifs <;> omega
    · have hrc : r * c = s.crow * c := by rw [heq]
      split_ifs <;> omega
    · have := mul_add_le_of_lt s.crow r c hgt
      split_ifs <;> omega

theorem placeMore_columnCount (c n : Nat) (s : GridCursor) (h : Placed c n s) (b : Bool) :
    (placeMore b s).grid.columnCount = max 1 (min (n + (if b = true then 1 else 0)) c) := by
  obtain ⟨hlt, hj, -, -, hcol, -⟩ := h
  have hcols : (placeMore b s).grid.columnCount =
      if b = true then max s.grid.columnCount (s.ccol + 1) else s.grid.columnCount := by
    unfold placeMore
    cases b <;> simp [QGridLayout.addWidget]
  have h0 : s.crow = 0 ∨ c ≤ s.crow * c := by
    rcases Nat.eq_zero_or_pos s.crow with h0 | hpos
    · exact Or.inl h0
    · have := mul_add_le_of_lt 0 s.crow c hpos
      exact Or.inr (by omega)
  have hz : s.crow = 0 → s.crow * c = 0 := by
    intro hx
    rw [hx, Nat.zero_mul]
  rw [hcols, hcol]
  rcases Nat.eq_zero_or_pos s.crow with hc0 | hcpos
  · have := hz hc0
    split_ifs <;> omega
  · split_ifs <;> omega

theorem placeMore_occupied (c n : Nat) (s : GridCursor) (h : Placed c n s) (b : Bool)
    (r k : Nat) :
    ((placeMore b s).widgetAt r k).isSome ↔
      (k < c ∧ r * c + k < n + (if b = true then 1 else 0)) := by
  rw [placeMore_cells c n s h b r k]
  cases b with
  | false =>
    by_cases h1 : k < c ∧ r * c + k < n
    · simp [h1]
    · simp only [if_neg h1]
      simpa using h1
  | true =>
    by_cases h1 : k < c ∧ r * c + k < n
    · simp only [if_pos h1, Option.isSome_some, true_iff, if_true]
      omega
    · by_cases h2 : k < c ∧ r * c + k = n
      · simp only [if_neg h1, true_and, if_pos h2, Option.isSome_some, true_iff, if_true]
        omega
      · simp only [if_neg h1, true_and, if_neg h2, if_true]
        constructor
        · intro hx
          simp at hx
        · intro hx
          omega

/-- The cells of a regenerated grid: the item of index `r * c + k` in cell `(r, k)` for
`k < c`, the "more" button in the cell after the last item, nothing elsewhere; `c` is
the wrap column. -/
theorem regenerateGrid_cells (p : ColorPickerPopup) (r k : Nat) :
    p.regenerateGrid.widgetAt r k =
      if k < wrapColumn (gridColumns p.cols p.items.length) p.items.length
          ∧ r * wrapColumn (gridColumns p.cols p.items.length) p.items.length + k
              < p.items.length then
        some (Widget.item
          (r * wrapColumn (gridColumns p.cols p.items.length) p.items.length + k))
      else if p.moreButton = true
          ∧ k < wrapColumn (gridColumns p.cols p.items.length) p.items.length
          ∧ r * wrapColumn (gridColumns p.cols p.items.length) p.items.length + k
              = p.items.length then
        some Widget.more
      else none :=
  placeMore_cells _ _ _ (placed_items _ p.items) p.moreButton r k

/-- The shape of a regenerated grid. -/
theorem regenerateGrid_shape (p : ColorPickerPopup) :
    GridShape p.regenerateGrid
      (wrapColumn (gridColumns p.cols p.items.length) p.items.length) (widgetCount p) := by
  have hp := placed_items (gridColumns p.cols p.items.length) p.items
  have hrow := placeMore_rowCount _ _ _ hp p.moreButton
  have hcol := placeMore_columnCount _ _ _ hp p.moreButton
  exact ⟨wrapColumn_pos _ _, fun r k => placeMore_occupied _ _ _ hp p.moreButton r k,
    hrow.1, hrow.2, hcol⟩

theorem wrapColumn_of_pos (c n : Nat) (hc : 1 ≤ c) : wrapColumn (c : Int) n = c := by
  unfold wrapColumn
  rw [if_pos (by omega)]
  simp

/-- C4. With an effective column count `c ≥ 1`, `regenerateGrid` puts the entry of
index `i` in cell `(i / c, i % c)` and entries nowhere else, and the "more" button,
when present, in cell `(N / c, N % c)` and nowhere else, `N` being the number of
entries; with no entry that cell is `(0, 0)`. -/
theorem regenerateGrid_places (p : ColorPickerPopup) (c : Nat) (hc : 1 ≤ c)
    (hcols : gridColumns p.cols p.items.length = (c : Int)) :
    (∀ i, i < p.items.length →
        p.regenerateGrid.widgetAt (i / c) (i % c) = some (Widget.item i))
    ∧ (∀ r k i, p.regenerateGrid.widgetAt r k = some (Widget.item i) →
        i < p.items.length ∧ r = i / c ∧ k = i % c)
    ∧ (p.moreButton = true →
        p.regenerateGrid.widgetAt (p.items.length / c) (p.items.length % c)
          = some Widget.more)
    ∧ (∀ r k, p.regenerateGrid.widgetAt r k = some Widget.more →
        p.moreButton = true ∧ r = p.items.length / c ∧ k = p.items.length % c)
    ∧ (p.items = [] → p.moreButton = true →
        p.regenerateGrid.widgetAt 0 0 = some Widget.more) := by
  have hcell := regenerateGrid_cells p
  rw [hcols, wrapColumn_of_pos c _ hc] at hcell
  have hdm : ∀ i, i % c < c ∧ i / c * c + i % c = i := fun i =>
    ⟨Nat.mod_lt _ hc, Nat.div_add_mod' i c⟩
  have huniq : ∀ r k i, k < c → r * c + k = i → r = i / c ∧ k = i % c := by
    intro r k i hk hi
    exact cell_unique c r k (i / c) (i % c) hk (hdm i).1 (by rw [(hdm i).2]; exact hi)
  have hmore : p.moreButton = true →
      p.regenerateGrid.widgetAt (p.items.length / c) (p.items.length % c)
        = some Widget.more := by
    intro hm
    rw [hcell]
    have h1 := hdm p.items.length
    rw [if_neg (by omega), if_pos ⟨hm, h1.1, h1.2⟩]
  refine ⟨?_, ?_, hmore, ?_, ?_⟩
  · intro i hi
    rw [hcell]
    have h1 := hdm i
    rw [if_pos ⟨h1.1, by omega⟩, h1.2]
  · intro r k i h
    rw [hcell] at h
    split_ifs at h with h1 h2
    · simp only [Option.some.injEq, Widget.item.injEq] at h
      have := huniq r k i h1.1 h
      omega
    · simp at h
  · intro r k h
    rw [hcell] at h
    split_ifs at h with h1 h2
    · simp at h
    · exact ⟨h2.1, huniq r k _ h2.2.1 h2.2.2⟩
  · intro he hm
    have := hmore hm
    simpa [he] using this

/-- C4 on the entries black, white, red with two columns: black and white fill row 0,
red starts row 1, and the cell to its right is empty. -/
theorem regenerateGrid_places_witness :
    (1 ≤ 2 ∧ gridColumns threeInTwo.cols threeInTwo.items.length = ((2 : Nat) : Int))
    ∧ (∀ i, i < threeInTwo.items.length →
        threeInTwo.regenerateGrid.widgetAt (i / 2) (i % 2) = some (Widget.item i))
    ∧ threeInTwo.items.map (fun x => x.c) = [black, white, red]
    ∧ [[threeInTwo.widgetAt 0 0, threeInTwo.widgetAt 0 1],
       [threeInTwo.widgetAt 1 0, threeInTwo.widgetAt 1 1]]
      = [[some (Widget.item 0), some (Widget.item 1)], [some (Widget.item 2), none]] :=
  ⟨⟨by decide, by decide⟩,
   (regenerateGrid_places threeInTwo 2 (by decide) (by decide)).1,
   by decide, by decide⟩

/-! ## Squareness of the automatic grid -/

theorem length_filter_range_of_lt (f : Nat → Bool) (t R : Nat) (ht : t ≤ R)
    (hf : ∀ r, r < R → (f r = true ↔ r < t)) :
    ((List.range R).filter f).length = t := by
  induction R generalizing t with
  | zero =>
    simp
    omega
  | succ R ih =>
    rw [List.range_succ, List.filter_append, List.length_append]
    by_cases hR : R < t
    · have hfR : f R = true := (hf R (by omega)).mpr hR
      have := ih R (Nat.le_refl _) (fun r hr => by
        have := hf r (by omega)
        constructor
        · intro _; exact hr
        · intro _; exact this.mpr (by omega))
      simp [hfR, this]
      omega
    · have hfR : ¬ (f R = true) := fun hx => hR ((hf R (by omega)).mp hx)
      have := ih t (by omega) (fun r hr => hf r (by omega))
      simp [hfR, this]

theorem entryRows_regenerateGrid (p : ColorPickerPopup) (t : Nat)
    (ht : ∀ r, r < t ↔
      r * wrapColumn (gridColumns p.cols p.items.length) p.items.length < p.items.length) :
    entryRows p.regenerateGrid = t := by
  obtain ⟨hc, hocc, hR1, hR, hC⟩ := regenerateGrid_shape p
  have hcell := regenerateGrid_cells p
  have hM : p.items.length ≤ widgetCount p := by
    unfold widgetCount
    omega
  unfold entryRows
  apply length_filter_range_of_lt
  · by_contra hlt
    push_neg at hlt
    have h1 := (ht p.regenerateGrid.grid.rowCount).mp hlt
    have h2 := (hR p.regenerateGrid.grid.rowCount hR1).mpr (by omega)
    omega
  · intro r _
    rw [List.any_eq_true, ht r]
    constructor
    · rintro ⟨k, _, hk⟩
      rw [hcell] at hk
      split_ifs at hk with h1 h2
      · omega
      · simp [isItem] at hk
      · simp [isItem] at hk
    · intro hr
      refine ⟨0, List.mem_range.mpr (by rw [hC]; omega), ?_⟩
      rw [hcell, if_pos ⟨by omega, by omega⟩]
      rfl

theorem rows_of_ceilSqrt (n c : Nat) (hpos : 1 ≤ c) (hsq : n ≤ c * c)
    (hpred : (c - 1) * (c - 1) < n) :
    (∀ r, r < (n + c - 1) / c ↔ r * c < n)
    ∧ (n + c - 1) / c ≤ c ∧ c ≤ (n + c - 1) / c + 1 := by
  have ht : ∀ r, r < (n + c - 1) / c ↔ r * c < n := by
    intro r
    rw [Nat.lt_iff_add_one_le, Nat.le_div_iff_mul_le hpos, Nat.succ_mul]
    omega
  refine ⟨ht, ?_, ?_⟩
  · by_contra hlt
    push_neg at hlt
    have := (ht c).mp hlt
    omega
  · by_contra hlt
    push_neg at hlt
    have h1 : ¬ ((n + c - 1) / c * c < n) := fun hx => by
      have := (ht ((n + c - 1) / c)).mpr hx
      omega
    have h2 := mul_add_le_of_lt ((n + c - 1) / c + 1) c c hlt
    obtain ⟨d, rfl⟩ : ∃ d, c = d + 1 := ⟨c - 1, by omega⟩
    have h3 : ((n + (d + 1) - 1) / (d + 1) + 1) * (d + 1)
        = (n + (d + 1) - 1) / (d + 1) * (d + 1) + (d + 1) := Nat.succ_mul _ _
    have h4 : (d + 1) * (d + 1) = d * d + d + d + 1 := by ring
    simp only [Nat.add_sub_cancel] at hpred
    omega

/-- With the exact square root: for automatic columns and at least one entry, the
number of rows that hold entries is at most the column count `ceilSqrt` gives, and
falls short of it by at most one. -/
theorem auto_grid_square (p : ColorPickerPopup) (hcols : p.cols = -1)
    (hn : 1 ≤ p.items.length) :
    gridColumns p.cols p.items.length = (ceilSqrt p.items.length : Int)
    ∧ entryRows p.regenerateGrid ≤ ceilSqrt p.items.length
    ∧ ceilSqrt p.items.length ≤ entryRows p.regenerateGrid + 1 := by
  have hg : gridColumns p.cols p.items.length = (ceilSqrt p.items.length : Int) := by
    simp [gridColumns, hcols]
  have hsq := ceilSqrt_sq_ge p.items.length
  have hpos : 1 ≤ ceilSqrt p.items.length := by
    rcases Nat.eq_zero_or_pos (ceilSqrt p.items.length) with h0 | h0
    · rw [h0] at hsq
      omega
    · exact h0
  obtain ⟨ht, hle, hge⟩ := rows_of_ceilSqrt p.items.length (ceilSqrt p.items.length) hpos hsq
    (ceilSqrt_pred_sq_lt p.items.length hpos)
  have hrows : entryRows p.regenerateGrid
      = (p.items.length + ceilSqrt p.items.length - 1) / ceilSqrt p.items.length := by
    apply entryRows_regenerateGrid
    intro r
    rw [hg, wrapColumn_of_pos _ _ hpos]
    exact ht r
  rw [hrows]
  exact ⟨hg, hle, hge⟩

/-- With the exact square root, on three entries: two columns and two rows. -/
theorem auto_grid_square_witness :
    ((runPopup (ColorPickerPopup.new (-1) false true)
        [PopupOp.insertColor black "Black" (-1), PopupOp.insertColor white "White" (-1),
         PopupOp.insertColor red "Red" (-1)]).cols = -1
      ∧ 1 ≤ (runPopup (ColorPickerPopup.new (-1) false true)
        [PopupOp.insertColor black "Black" (-1), PopupOp.insertColor white "White" (-1),
         PopupOp.insertColor red "Red" (-1)]).items.length)
    ∧ entryRows (runPopup (ColorPickerPopup.new (-1) false true)
        [PopupOp.insertColor black "Black" (-1), PopupOp.insertColor white "White" (-1),
         PopupOp.insertColor red "Red" (-1)]).regenerateGrid ≤ ceilSqrt 3
    ∧ ceilSqrt 3 = 2 :=
  ⟨⟨by decide, by decide⟩,
   (auto_grid_square _ (by decide) (by decide)).2.1, by decide⟩

/-! ## Setting the current colour -/

theorem qlistInsert_at_length (x : ColorPickerItem) (l : List ColorPickerItem) (i : Int)
    (hi : i = (l.length : Int)) : qlistInsert i x l = l ++ [x] := by
  unfold qlistInsert
  subst hi
  cases l with
  | nil => simp
  | cons y ys =>
    rw [if_neg (by simp only [List.length_cons]; omega), if_pos (le_refl _)]

theorem findItem_append_new (col : QColor) (l : List ColorPickerItem) (x : ColorPickerItem)
    (hl : ∀ y ∈ l, y.c ≠ col) (hx : x.c = col) : findItem col (l ++ [x]) = some l.length := by
  induction l with
  | nil => simp [findItem, hx]
  | cons y ys ih =>
    have hy : y.c ≠ col := hl y (List.mem_cons_self _ _)
    have := ih (fun z hz => hl z (List.mem_cons_of_mem _ hz))
    simp [findItem, hy, this]

theorem setSelectedAt_append_last (l : List ColorPickerItem) (x : ColorPickerItem) (b : Bool) :
    setSelectedAt (l ++ [x]) l.length b = l ++ [{ x with sel := b }] := by
  induction l with
  | nil => simp [setSelectedAt]
  | cons y ys ih => simp [setSelectedAt, ih]

theorem mem_of_map_entryKey_eq (l l' : List ColorPickerItem)
    (h : l'.map entryKey = l.map entryKey) (col : QColor) (hl : ∀ y ∈ l, y.c ≠ col) :
    ∀ y ∈ l', y.c ≠ col := by
  intro y hy
  have : entryKey y ∈ l.map entryKey := by
    rw [← h]
    exact List.mem_map_of_mem _ hy
  obtain ⟨z, hz, hzy⟩ := List.mem_map.mp this
  have hc : z.c = y.c := congrArg Prod.fst hzy
  rw [← hc]
  exact hl z hz

/-- Inserting, at the default position, a colour that no entry has appends one entry
with that colour and text and keeps the others in order. -/
theorem insertColor_new_items (p : ColorPickerPopup) (col : QColor) (text : String)
    (hnew : ∀ y ∈ p.items, y.c ≠ col) :
    ∃ l x, (p.insertColor col text (-1)).items = l ++ [x]
      ∧ l.map entryKey = p.items.map entryKey ∧ x.c = col ∧ x.t = text := by
  have hfind : p.find col = none := findItem_eq_none col p.items hnew
  unfold ColorPickerPopup.insertColor
  simp only [hfind, if_true]
  cases hl : p.find p.lastSelected with
  | none =>
    refine ⟨p.items, { c := col, t := text, sel := true }, ?_, rfl, rfl, rfl⟩
    simp only [ColorPickerPopup.regenerateGrid]
    exact qlistInsert_at_length _ _ _ rfl
  | some e =>
    refine ⟨setSelectedAt p.items e false, { c := col, t := text, sel := false }, ?_,
      setSelectedAt_map_key _ _ _, rfl, rfl⟩
    simp only [ColorPickerPopup.regenerateGrid]
    exact qlistInsert_at_length _ _ _ (by rw [setSelectedAt_length])

/-- C6. `setCurrentColor` with the current colour or an invalid colour returns the
picker as it was and emits nothing; with a valid colour other than the current one
it emits `colorChanged` once, with that colour, and the colour becomes current. -/
theorem setCurrentColor_guard (k : QtColorPicker) (color : QColor) :
    ((k.col = color ∨ color.isValid = false) → k.setCurrentColor color = (k, []))
    ∧ ((k.col ≠ color ∧ color.isValid = true) →
        (k.setCurrentColor color).2 = [color]
        ∧ (k.setCurrentColor color).1.currentColor = color) := by
  constructor
  · intro h
    unfold QtColorPicker.setCurrentColor
    rw [if_pos]
    rcases h with h | h
    · exact Or.inl h
    · exact Or.inr (by simp [h])
  · rintro ⟨hne, hv⟩
    unfold QtColorPicker.setCurrentColor
    rw [if_neg (by simp [hne, hv])]
    dsimp only
    split <;> exact ⟨rfl, rfl⟩

/-- C6 on the picker holding black (current) and white: setting black, or an invalid
colour, changes nothing and emits nothing; setting white emits white once. -/
theorem setCurrentColor_guard_witness :
    (blackWhitePicker.col = black ∨ black.isValid = false)
    ∧ blackWhitePicker.setCurrentColor black = (blackWhitePicker, [])
    ∧ blackWhitePicker.setCurrentColor QColor.invalid = (blackWhitePicker, [])
    ∧ (blackWhitePicker.col ≠ white ∧ white.isValid = true)
    ∧ (blackWhitePicker.setCurrentColor white).2 = [white]
    ∧ (blackWhitePicker.setCurrentColor white).1.currentColor = white :=
  ⟨Or.inl (by decide),
   (setCurrentColor_guard blackWhitePicker black).1 (Or.inl (by decide)),
   (setCurrentColor_guard blackWhitePicker QColor.invalid).1 (Or.inr (by decide)),
   ⟨by decide, by decide⟩,
   (setCurrentColor_guard blackWhitePicker white).2 ⟨by decide, by decide⟩⟩

/-- C7. `setCurrentColor` with a valid colour that is not current and that no entry
has appends one entry with that colour and an empty text, keeps the other entries in
order, and leaves the new entry selected and its colour current. -/
theorem setCurrentColor_inserts (k : QtColorPicker) (c : QColor) (hv : c.isValid = true)
    (hne : k.col ≠ c) (hnew : ∀ y ∈ k.popup.items, y.c ≠ c) :
    (k.setCurrentColor c).1.popup.items.map entryKey
        = k.popup.items.map entryKey ++ [(c, "")]
    ∧ (k.setCurrentColor c).1.popup.items.length = k.popup.items.length + 1
    ∧ (∃ x, (k.setCurrentColor c).1.popup.items[k.popup.items.length]? = some x
        ∧ x.c = c ∧ x.t = "" ∧ x.sel = true)
    ∧ (k.setCurrentColor c).1.currentColor = c := by
  obtain ⟨l, x, hitems, hkey, hxc, hxt⟩ := insertColor_new_items k.popup c "" hnew
  have hlen : l.length = k.popup.items.length := by
    have := congrArg List.length hkey
    simpa using this
  have hfind : k.popup.find c = none := findItem_eq_none c k.popup.items hnew
  have hpop : (k.insertColor c "" (-1)).popup = k.popup.insertColor c "" (-1) := by
    unfold QtColorPicker.insertColor
    split <;> rfl
  have hfind1 : (k.popup.insertColor c "" (-1)).find c = some l.length := by
    unfold ColorPickerPopup.find
    rw [hitems]
    exact findItem_append_new c l x (mem_of_map_entryKey_eq _ _ hkey c hnew) hxc
  have hres : (k.setCurrentColor c).1.popup.items = l ++ [{ x with sel := true }]
      ∧ (k.setCurrentColor c).1.currentColor = c := by
    unfold QtColorPicker.setCurrentColor
    rw [if_neg (by simp [hne, hv])]
    simp only [hfind, ColorPickerPopup.hide, hpop, hfind1, hitems]
    exact ⟨setSelectedAt_append_last l x true, rfl⟩
  rw [hres.1]
  refine ⟨?_, ?_, ?_, hres.2⟩
  · simp [hkey, entryKey, hxc, hxt]
  · simp [hlen]
  · refine ⟨{ x with sel := true }, ?_, hxc, hxt, rfl⟩
    rw [← hlen]
    simp

/-- C7 on the picker holding black and white: making red current appends it, selected. -/
theorem setCurrentColor_inserts_witness :
    (red.isValid = true ∧ blackWhitePicker.col ≠ red
      ∧ ∀ y ∈ blackWhitePicker.popup.items, y.c ≠ red)
    ∧ (blackWhitePicker.setCurrentColor red).1.popup.items.map entryKey
        = blackWhitePicker.popup.items.map entryKey ++ [(red, "")]
    ∧ (blackWhitePicker.setCurrentColor red).1.popup.items.map (fun x => x.sel)
        = [false, false, true] :=
  ⟨⟨by decide, by decide, by decide⟩,
   (setCurrentColor_inserts blackWhitePicker red (by decide) (by decide) (by decide)).1,
   by decide⟩

/-! ## Keyboard navigation on a regenerated grid -/

theorem shape_bounds (q : ColorPickerPopup) (c m : Nat) (h : GridShape q c m) (r k : Nat)
    (ho : (q.widgetAt r k).isSome) : r < q.grid.rowCount ∧ k < q.grid.columnCount ∧ 1 ≤ m := by
  obtain ⟨hc, hocc, hR1, hR, hC⟩ := h
  have h1 := (hocc r k).mp ho
  refine ⟨?_, by rw [hC]; omega, by omega⟩
  rcases Nat.eq_zero_or_pos r with h0 | hpos
  · omega
  · exact (hR r hpos).mpr (by omega)

theorem shape_left_closed (q : ColorPickerPopup) (c m : Nat) (h : GridShape q c m)
    (r k j : Nat) (ho : (q.widgetAt r k).isSome) (hj : j ≤ k) : (q.widgetAt r j).isSome := by
  obtain ⟨hc, hocc, hR1, hR, hC⟩ := h
  have h1 := (hocc r k).mp ho
  exact (hocc r j).mpr (by omega)

theorem shape_full_row (q : ColorPickerPopup) (c m : Nat) (h : GridShape q c m) (r k : Nat)
    (hr : r + 1 < q.grid.rowCount) (hk : k < q.grid.columnCount) :
    (q.widgetAt r k).isSome := by
  obtain ⟨hc, hocc, hR1, hR, hC⟩ := h
  have h1 := (hR (r + 1) (by omega)).mp hr
  rw [Nat.succ_mul] at h1
  rw [hC] at hk
  exact (hocc r k).mpr (by omega)

theorem shape_first_column (q : ColorPickerPopup) (c m : Nat) (h : GridShape q c m) (r : Nat)
    (hr : r < q.grid.rowCount) (hm : 1 ≤ m) : (q.widgetAt r 0).isSome := by
  obtain ⟨hc, hocc, hR1, hR, hC⟩ := h
  refine (hocc r 0).mpr ⟨by omega, ?_⟩
  rcases Nat.eq_zero_or_pos r with h0 | hpos
  · rw [h0]
    omega
  · have := (hR r hpos).mp hr
    omega

theorem scanFree_some (w : Nat → Nat → Option Widget) (row i n j : Nat)
    (h : scanFree w row i n = some j) :
    i ≤ j ∧ j < i + n ∧ (w row j).isNone = true
      ∧ ∀ x, i ≤ x → x < j → (w row x).isSome = true := by
  induction n generalizing i with
  | zero => simp [scanFree] at h
  | succ n ih =>
    unfold scanFree at h
    by_cases hi : (w row i).isNone = true
    · rw [if_pos hi] at h
      simp only [Option.some.injEq] at h
      subst h
      exact ⟨le_refl _, by omega, hi, fun x hx hx' => by omega⟩
    · rw [if_neg hi] at h
      obtain ⟨h1, h2, h3, h4⟩ := ih (i + 1) h
      refine ⟨by omega, by omega, h3, ?_⟩
      intro x hx hx'
      rcases Nat.eq_or_lt_of_le hx with heq | hlt
      · subst heq
        cases hw : w row i with
        | none => simp [hw] at hi
        | some _ => rfl
      · exact h4 x hlt hx'

theorem scanFree_none (w : Nat → Nat → Option Widget) (row i n : Nat)
    (h : scanFree w row i n = none) :
    ∀ x, i ≤ x → x < i + n → (w row x).isSome = true := by
  induction n generalizing i with
  | zero => intro x hx hx'; omega
  | succ n ih =>
    unfold scanFree at h
    by_cases hi : (w row i).isNone = true
    · rw [if_pos hi] at h
      simp at h
    · rw [if_neg hi] at h
      intro x hx hx'
      rcases Nat.eq_or_lt_of_le hx with heq | hlt
      · subst heq
        cases hw : w row i with
        | none => simp [hw] at hi
        | some _ => rfl
      · exact ih (i + 1) h x hlt (by omega)

/-- The `Key_Down` branch from an occupied cell above a row whose cell below is empty:
the scan finds a column, and the cursor lands on the last occupied cell of the next
row, which is at or left of the current column. -/
theorem down_short_row (q : ColorPickerPopup) (c m : Nat) (h : GridShape q c m) (r k : Nat)
    (ho : (q.widgetAt r k).isSome) (hr : r < q.grid.rowCount - 1)
    (hb : ¬ (q.widgetAt (r + 1) k).isSome) :
    ∃ k', moveCursor q Key.Key_Down r k = (r + 1, k')
      ∧ (q.widgetAt (r + 1) k').isSome ∧ k' ≤ k
      ∧ ∀ x, (q.widgetAt (r + 1) x).isSome → x ≤ k' := by
  obtain ⟨_, hkC, hm⟩ := shape_bounds q c m h r k ho
  have hfirst := shape_first_column q c m h (r + 1) (by omega) hm
  have hk0 : 1 ≤ k := by
    rcases Nat.eq_zero_or_pos k with h0 | hpos
    · rw [h0] at hb
      exact absurd hfirst hb
    · exact hpos
  unfold moveCursor
  simp only [if_pos hr, if_neg hb]
  cases hs : scanFree q.widgetAt (r + 1) 1 (q.grid.columnCount - 1) with
  | none =>
    exact absurd (scanFree_none _ _ _ _ hs k hk0 (by omega)) hb
  | some j =>
    obtain ⟨h1, h2, h3, h4⟩ := scanFree_some _ _ _ _ _ hs
    have hjk : j ≤ k := by
      by_contra hlt
      push_neg at hlt
      exact hb (h4 k hk0 hlt)
    have hfree : ¬ (q.widgetAt (r + 1) j).isSome := by
      cases hw : q.widgetAt (r + 1) j with
      | none => simp
      | some _ => simp [hw] at h3
    refine ⟨j - 1, rfl, ?_, by omega, ?_⟩
    · rcases Nat.eq_or_lt_of_le h1 with heq | hlt
      · rw [← heq]
        exact hfirst
      · exact h4 (j - 1) (by omega) (by omega)
    · intro x hx
      by_contra hlt
      push_neg at hlt
      exact hfree (shape_left_closed q c m h (r + 1) x j hx (by omega))

theorem moveCursor_occupied (q : ColorPickerPopup) (c m : Nat) (h : GridShape q c m)
    (key : Key) (r k : Nat) (ho : (q.widgetAt r k).isSome) :
    (q.widgetAt (moveCursor q key r k).1 (moveCursor q key r k).2).isSome := by
  obtain ⟨hrR, hkC, hm⟩ := shape_bounds q c m h r k ho
  cases key with
  | Key_Left =>
    unfold moveCursor
    by_cases hk : k > 0
    · simp only [if_pos hk]
      exact shape_left_closed q c m h r k (k - 1) ho (by omega)
    · by_cases hr : r > 0
      · simp only [if_neg hk, if_pos hr]
        exact shape_full_row q c m h (r - 1) (q.grid.columnCount - 1) (by omega) (by omega)
      · simp only [if_neg hk, if_neg hr]
        exact ho
  | Key_Right =>
    unfold moveCursor
    by_cases h1 : k < q.grid.columnCount - 1 ∧ (q.widgetAt r (k + 1)).isSome
    · simp only [if_pos h1]
      exact h1.2
    · by_cases h2 : r < q.grid.rowCount - 1
      · simp only [if_neg h1, if_pos h2]
        exact shape_first_column q c m h (r + 1) (by omega) hm
      · simp only [if_neg h1, if_neg h2]
        exact ho
  | Key_Up =>
    unfold moveCursor
    by_cases hr : r > 0
    · simp only [if_pos hr]
      exact shape_full_row q c m h (r - 1) k (by omega) hkC
    · simp only [if_neg hr]
      exact shape_first_column q c m h r hrR hm
  | Key_Down =>
    by_cases hr : r < q.grid.rowCount - 1
    · by_cases hb : (q.widgetAt (r + 1) k).isSome
      · unfold moveCursor
        simp only [if_pos hr, if_pos hb]
        exact hb
      · obtain ⟨k', hmove, hocc', -, -⟩ := down_short_row q c m h r k ho hr hb
        rw [hmove]
        exact hocc'
    · unfold moveCursor
      simp only [if_neg hr]
      exact ho
  | Key_Space => exact ho
  | Key_Return => exact ho
  | Key_Enter => exact ho
  | Key_Escape => exact ho
  | other => exact ho

theorem keyPressEvent_cursor (q : ColorPickerPopup) (key : Key) (r k : Nat) :
    (q.keyPressEvent key r k).curRow = (moveCursor q key r k).1
    ∧ (q.keyPressEvent key r k).curCol = (moveCursor q key r k).2 := by
  cases key <;> exact ⟨rfl, rfl⟩

/-- C8. On every regenerated grid, from every occupied cell and for every key (the
four arrows among them), the cell `keyPressEvent` ends on is an occupied cell. -/
theorem cursor_stays_occupied (p : ColorPickerPopup) (key : Key) (r k : Nat)
    (ho : (p.regenerateGrid.widgetAt r k).isSome) :
    (p.regenerateGrid.widgetAt (p.regenerateGrid.keyPressEvent key r k).curRow
      (p.regenerateGrid.keyPressEvent key r k).curCol).isSome := by
  rw [(keyPressEvent_cursor _ key r k).1, (keyPressEvent_cursor _ key r k).2]
  exact moveCursor_occupied _ _ _ (regenerateGrid_shape p) key r k ho

/-- C8 on black, white, red in two columns: from white, the `Key_Down` cell is occupied. -/
theorem cursor_stays_occupied_witness :
    (threeInTwo.regenerateGrid.widgetAt 0 1).isSome
    ∧ (threeInTwo.regenerateGrid.widgetAt
        (threeInTwo.regenerateGrid.keyPressEvent Key.Key_Down 0 1).curRow
        (threeInTwo.regenerateGrid.keyPressEvent Key.Key_Down 0 1).curCol).isSome :=
  ⟨by decide, cursor_stays_occupied threeInTwo Key.Key_Down 0 1 (by decide)⟩

/-- C9. `Key_Down` on a regenerated grid, from an occupied cell `(r, k)`: above an
occupied cell the cursor moves onto it; above an empty cell of an existing row it
moves to the rightmost occupied column of that row, which is at or left of `k`; in
the last row it stays. -/
theorem down_transition (p : ColorPickerPopup) (r k : Nat)
    (ho : (p.regenerateGrid.widgetAt r k).isSome) :
    (r < p.regenerateGrid.grid.rowCount - 1 →
      (p.regenerateGrid.widgetAt (r + 1) k).isSome →
        (p.regenerateGrid.keyPressEvent Key.Key_Down r k).curRow = r + 1
        ∧ (p.regenerateGrid.keyPressEvent Key.Key_Down r k).curCol = k)
    ∧ (r < p.regenerateGrid.grid.rowCount - 1 →
      ¬ (p.regenerateGrid.widgetAt (r + 1) k).isSome →
        (p.regenerateGrid.keyPressEvent Key.Key_Down r k).curRow = r + 1
        ∧ (p.regenerateGrid.keyPressEvent Key.Key_Down r k).curCol ≤ k
        ∧ (p.regenerateGrid.widgetAt (r + 1)
            (p.regenerateGrid.keyPressEvent Key.Key_Down r k).curCol).isSome
        ∧ ∀ x, (p.regenerateGrid.widgetAt (r + 1) x).isSome →
            x ≤ (p.regenerateGrid.keyPressEvent Key.Key_Down r k).curCol)
    ∧ (r = p.regenerateGrid.grid.rowCount - 1 →
        (p.regenerateGrid.keyPressEvent Key.Key_Down r k).curRow = r
        ∧ (p.regenerateGrid.keyPressEvent Key.Key_Down r k).curCol = k) := by
  rw [(keyPressEvent_cursor _ Key.Key_Down r k).1, (keyPressEvent_cursor _ Key.Key_Down r k).2]
  refine ⟨?_, ?_, ?_⟩
  · intro hr hb
    unfold moveCursor
    simp only [if_pos hr, if_pos hb, and_self]
  · intro hr hb
    obtain ⟨k', hmove, hocc, hle, hmax⟩ :=
      down_short_row _ _ _ (regenerateGrid_shape p) r k ho hr hb
    rw [hmove]
    exact ⟨rfl, hle, hocc, hmax⟩
  · intro hr
    unfold moveCursor
    have hlast : ¬ (r < p.regenerateGrid.grid.rowCount - 1) := by omega
    simp only [if_neg hlast, and_self]

/-- C9 on black, white, red in two columns: `Key_Down` from black lands on red, and
`Key_Down` from white, whose cell below is empty, lands on red as well. -/
theorem down_transition_witness :
    ((threeInTwo.regenerateGrid.widgetAt 0 1).isSome
      ∧ 0 < threeInTwo.regenerateGrid.grid.rowCount - 1
      ∧ ¬ (threeInTwo.regenerateGrid.widgetAt (0 + 1) 1).isSome)
    ∧ ((threeInTwo.regenerateGrid.keyPressEvent Key.Key_Down 0 1).curRow = 0 + 1
      ∧ (threeInTwo.regenerateGrid.keyPressEvent Key.Key_Down 0 1).curCol ≤ 1
      ∧ (threeInTwo.regenerateGrid.widgetAt (0 + 1)
          (threeInTwo.regenerateGrid.keyPressEvent Key.Key_Down 0 1).curCol).isSome
      ∧ ∀ x, (threeInTwo.regenerateGrid.widgetAt (0 + 1) x).isSome →
          x ≤ (threeInTwo.regenerateGrid.keyPressEvent Key.Key_Down 0 1).curCol)
    ∧ threeInTwo.widgetAt 1 0 = some (Widget.item 2)
    ∧ ((threeInTwo.keyPressEvent Key.Key_Down 0 0).curRow,
        (threeInTwo.keyPressEvent Key.Key_Down 0 0).curCol) = (1, 0)
    ∧ ((threeInTwo.keyPressEvent Key.Key_Down 0 1).curRow,
        (threeInTwo.keyPressEvent Key.Key_Down 0 1).curCol) = (1, 0) :=
  ⟨⟨by decide, by decide, by decide⟩,
   (down_transition threeInTwo 0 1 (by decide)).2.1 (by decide) (by decide),
   by decide, by decide, by decide⟩

/-- C10. On a regenerated grid, from an occupied cell `(r, k)`: `Key_Left` then
`Key_Right` returns to it when `k > 0`; `Key_Down` then `Key_Up` returns to it when
the cell below is occupied; `Key_Up` then `Key_Down` returns to it when `r > 0`. -/
theorem moves_inverse (p : ColorPickerPopup) (r k : Nat)
    (ho : (p.regenerateGrid.widgetAt r k).isSome) :
    (0 < k →
      (p.regenerateGrid.keyPressEvent Key.Key_Right
          (p.regenerateGrid.keyPressEvent Key.Key_Left r k).curRow
          (p.regenerateGrid.keyPressEvent Key.Key_Left r k).curCol).curRow = r
      ∧ (p.regenerateGrid.keyPressEvent Key.Key_Right
          (p.regenerateGrid.keyPressEvent Key.Key_Left r k).curRow
          (p.regenerateGrid.keyPressEvent Key.Key_Left r k).curCol).curCol = k)
    ∧ ((p.regenerateGrid.widgetAt (r + 1) k).isSome →
      (p.regenerateGrid.keyPressEvent Key.Key_Up
          (p.regenerateGrid.keyPressEvent Key.Key_Down r k).curRow
          (p.regenerateGrid.keyPressEvent Key.Key_Down r k).curCol).curRow = r
      ∧ (p.regenerateGrid.keyPressEvent Key.Key_Up
          (p.regenerateGrid.keyPressEvent Key.Key_Down r k).curRow
          (p.regenerateGrid.keyPressEvent Key.Key_Down r k).curCol).curCol = k)
    ∧ (0 < r →
      (p.regenerateGrid.keyPressEvent Key.Key_Down
          (p.regenerateGrid.keyPressEvent Key.Key_Up r k).curRow
          (p.regenerateGrid.keyPressEvent Key.Key_Up r k).curCol).curRow = r
      ∧ (p.regenerateGrid.keyPressEvent Key.Key_Down
          (p.regenerateGrid.keyPressEvent Key.Key_Up r k).curRow
          (p.regenerateGrid.keyPressEvent Key.Key_Up r k).curCol).curCol = k) := by
  have hs := regenerateGrid_shape p
  obtain ⟨hrR, hkC, hm⟩ := shape_bounds _ _ _ hs r k ho
  simp only [keyPressEvent_cursor]
  refine ⟨?_, ?_, ?_⟩
  · intro hk
    have hl : moveCursor p.regenerateGrid Key.Key_Left r k = (r, k - 1) := by
      unfold moveCursor
      simp only [gt_iff_lt, if_pos hk]
    rw [hl]
    have hk1 : k - 1 + 1 = k := by omega
    unfold moveCursor
    simp only []
    rw [if_pos ⟨by omega, by rw [hk1]; exact ho⟩, hk1]
    exact ⟨rfl, rfl⟩
  · intro hb
    obtain ⟨hrR', -, -⟩ := shape_bounds _ _ _ hs (r + 1) k hb
    have hd : moveCursor p.regenerateGrid Key.Key_Down r k = (r + 1, k) := by
      unfold moveCursor
      simp only [if_pos (show r < p.regenerateGrid.grid.rowCount - 1 by omega), if_pos hb]
    rw [hd]
    unfold moveCursor
    simp only [gt_iff_lt, Nat.zero_lt_succ, if_true, Nat.add_sub_cancel, and_self]
  · intro hr
    have hu : moveCursor p.regenerateGrid Key.Key_Up r k = (r - 1, k) := by
      unfold moveCursor
      simp only [gt_iff_lt, if_pos hr]
    rw [hu]
    have hr1 : r - 1 + 1 = r := by omega
    unfold moveCursor
    simp only []
    rw [if_pos (show r - 1 < p.regenerateGrid.grid.rowCount - 1 by omega),
      if_pos (by rw [hr1]; exact ho), hr1]
    exact ⟨rfl, rfl⟩

/-- C10 on black, white, red in two columns: from white, `Key_Left` then `Key_Right`
returns to white. -/
theorem moves_inverse_witness :
    (threeInTwo.regenerateGrid.widgetAt 0 1).isSome
    ∧ (threeInTwo.regenerateGrid.keyPressEvent Key.Key_Right
        (threeInTwo.regenerateGrid.keyPressEvent Key.Key_Left 0 1).curRow
        (threeInTwo.regenerateGrid.keyPressEvent Key.Key_Left 0 1).curCol).curRow = 0
    ∧ (threeInTwo.regenerateGrid.keyPressEvent Key.Key_Right
        (threeInTwo.regenerateGrid.keyPressEvent Key.Key_Left 0 1).curRow
        (threeInTwo.regenerateGrid.keyPressEvent Key.Key_Left 0 1).curCol).curCol = 1 :=
  ⟨by decide, (moves_inverse threeInTwo 0 1 (by decide)).1 (by decide)⟩

/-! ## The last selected colour under insertions -/

theorem mem_map_c_qlistInsert (col : QColor) (i : Int) (x : ColorPickerItem)
    (l : List ColorPickerItem) (h : col ∈ l.map (fun y => y.c)) :
    col ∈ (qlistInsert i x l).map (fun y => y.c) := by
  unfold qlistInsert
  split_ifs
  · exact List.mem_map.mpr (by
      obtain ⟨y, hy, hyc⟩ := List.mem_map.mp h
      exact ⟨y, List.mem_cons_of_mem _ hy, hyc⟩)
  · rw [List.map_append]
    exact List.mem_append_left _ h
  · obtain ⟨y, hy, hyc⟩ := List.mem_map.mp h
    rw [← List.take_append_drop i.toNat l] at hy
    refine List.mem_map.mpr ⟨y, ?_, hyc⟩
    rcases List.mem_append.mp hy with h1 | h1
    · exact List.mem_append_left _ h1
    · exact List.mem_append_right _ (List.mem_cons_of_mem _ h1)

theorem mem_map_c_qlistInsert_self (i : Int) (x : ColorPickerItem)
    (l : List ColorPickerItem) : x.c ∈ (qlistInsert i x l).map (fun y => y.c) := by
  unfold qlistInsert
  split_ifs <;> simp

/-- Once the colour in `lastSel` is the colour of an entry, `insertColor` keeps
`lastSel`, and that colour stays the colour of an entry. -/
theorem insertColor_keeps_lastSel (p : ColorPickerPopup) (col : QColor) (text : String)
    (index : Int) (h : p.lastSel ∈ p.items.map (fun y => y.c)) :
    (p.insertColor col text index).lastSel = p.lastSel
    ∧ p.lastSel ∈ (p.insertColor col text index).items.map (fun y => y.c) := by
  obtain ⟨l, hl⟩ := findItem_isSome_of_mem p.lastSel p.items (by
    obtain ⟨y, hy, hyc⟩ := List.mem_map.mp h
    exact ⟨y, hy, hyc⟩)
  have hfl : p.find p.lastSelected = some l := hl
  unfold ColorPickerPopup.insertColor
  cases he : p.find col with
  | some e =>
    simp only [hfl]
    refine ⟨trivial, ?_⟩
    show p.lastSel ∈ (setSelectedAt _ e true).map (fun y => y.c)
    rw [setSelectedAt_map_c]
    split_ifs
    · rw [setSelectedAt_map_c]
      exact h
    · exact h
  | none =>
    simp only [hfl]
    refine ⟨rfl, ?_⟩
    show p.lastSel ∈ (qlistInsert _ _ (setSelectedAt p.items l false)).map (fun y => y.c)
    apply mem_map_c_qlistInsert
    rw [setSelectedAt_map_c]
    exact h

/-- The first `insertColor` on a freshly constructed popup records its colour in
`lastSel` and creates the entry with that colour. -/
theorem insertColor_first (width : Int) (withColorDialog isPopup : Bool) (col : QColor)
    (text : String) (index : Int) :
    ((ColorPickerPopup.new width withColorDialog isPopup).insertColor col text index).lastSel
      = col
    ∧ col ∈ ((ColorPickerPopup.new width withColorDialog isPopup).insertColor
        col text index).items.map (fun y => y.c) := by
  have hitems : (ColorPickerPopup.new width withColorDialog isPopup).items = [] := rfl
  have h1 : (ColorPickerPopup.new width withColorDialog isPopup).find col = none := by
    unfold ColorPickerPopup.find
    rw [hitems]
    rfl
  have h2 : (ColorPickerPopup.new width withColorDialog isPopup).find
      (ColorPickerPopup.new width withColorDialog isPopup).lastSelected = none := by
    unfold ColorPickerPopup.find
    rw [hitems]
    rfl
  unfold ColorPickerPopup.insertColor
  simp only [h1, h2]
  refine ⟨rfl, ?_⟩
  exact mem_map_c_qlistInsert_self _ { c := col, t := text, sel := true } _

theorem insertAll_keeps_lastSel (p : ColorPickerPopup)
    (calls : List (QColor × String × Int)) (h : p.lastSel ∈ p.items.map (fun y => y.c)) :
    (insertAll p calls).lastSel = p.lastSel := by
  induction calls generalizing p with
  | nil => rfl
  | cons a rest ih =>
    have hstep := insertColor_keeps_lastSel p a.1 a.2.1 a.2.2 h
    have := ih (p.insertColor a.1 a.2.1 a.2.2) (by rw [hstep.1]; exact hstep.2)
    simp only [insertAll, List.foldl_cons] at this ⊢
    rw [this, hstep.1]

theorem eventLoop_single (p : ColorPickerPopup) (e : UserEvent) :
    eventLoop p [e] = e.apply p := by
  unfold eventLoop
  split_ifs
  · rfl
  · rfl

theorem lastSelected_eq (p : ColorPickerPopup) : p.lastSelected = p.lastSel := rfl

theorem show_lastSel (p : ColorPickerPopup) : p.show.lastSel = p.lastSel := rfl

theorem escape_lastSel (p : ColorPickerPopup) (r k : Nat) :
    (UserEvent.apply p (UserEvent.key Key.Key_Escape r k)).lastSel = p.lastSel := by
  show (if p.isPopup = true then p.hide else p).lastSel = p.lastSel
  split_ifs <;> rfl

theorem mouseRelease_lastSel (p : ColorPickerPopup) (inside : Bool) :
    (UserEvent.apply p (UserEvent.mouseRelease inside)).lastSel = p.lastSel := by
  show (p.mouseReleaseEvent inside).lastSel = p.lastSel
  unfold ColorPickerPopup.mouseReleaseEvent
  split_ifs <;> rfl

/-- C13. After any non-empty run of `insertColor` calls on a freshly constructed
popup, `lastSelected()` is the colour of the first call. In particular the popup
that `getColor` builds has `lastSelected() == black`, and `getColor` returns black
when the popup is closed by Escape or by a click outside it, or sees no event. -/
theorem lastSelected_first_inserted (width : Int) (withColorDialog isPopup : Bool)
    (col : QColor) (text : String) (index : Int) (rest : List (QColor × String × Int))
    (curRow curCol : Nat) :
    (insertAll (ColorPickerPopup.new width withColorDialog isPopup)
        ((col, text, index) :: rest)).lastSelected = col
    ∧ (getColorPopup withColorDialog isPopup).lastSelected = black
    ∧ getColor withColorDialog isPopup [] = black
    ∧ getColor withColorDialog isPopup [UserEvent.key Key.Key_Escape curRow curCol] = black
    ∧ getColor withColorDialog isPopup [UserEvent.mouseRelease false] = black := by
  have hgen : ∀ (w : Int) (c : QColor) (t : String) (i : Int)
      (r : List (QColor × String × Int)),
      (insertAll (ColorPickerPopup.new w withColorDialog isPopup)
        ((c, t, i) :: r)).lastSel = c := by
    intro w c t i r
    have hfirst := insertColor_first w withColorDialog isPopup c t i
    have := insertAll_keeps_lastSel _ r (by rw [hfirst.1]; exact hfirst.2)
    simp only [insertAll, List.foldl_cons] at this ⊢
    rw [this, hfirst.1]
  have hpop : (getColorPopup withColorDialog isPopup).lastSel = black := by
    unfold getColorPopup
    exact hgen (-1) black "Black" 0 _
  refine ⟨hgen width col text index rest, hpop, ?_, ?_, ?_⟩
  · unfold getColor ColorPickerPopup.exec eventLoop
    rw [lastSelected_eq, show_lastSel]
    exact hpop
  · unfold getColor ColorPickerPopup.exec
    rw [eventLoop_single, lastSelected_eq, escape_lastSel, show_lastSel]
    exact hpop
  · unfold getColor ColorPickerPopup.exec
    rw [eventLoop_single, lastSelected_eq, mouseRelease_lastSel, show_lastSel]
    exact hpop

/-! ## The popup position -/

/-- With the desktop's origin at `left() == 0` and a popup lower than the desktop,
the position computed by `buttonPressed` keeps the popup inside the desktop, as long
as no `int` sum overflows. -/
theorem buttonPressedPos_inside_of_origin (desktop : QRect) (pos : QPoint) (size : QSize)
    (hleft : desktop.left = 0) (hw : size.width ≤ desktop.width)
    (hh : size.height < desktop.height) :
    insideDesktop desktop (buttonPressedPos desktop pos size) size := by
  obtain ⟨x, y⟩ := pos
  unfold insideDesktop buttonPressedPos QRect.right QRect.bottom
  dsimp only at *
  split_ifs <;> (try dsimp only at *) <;> omega

/-- C12. Evaluation of `buttonPressed` where the computed position leaves the desktop.
On a desktop spanning x = -1920 .. 1919 (width 3840), a 200 x 100 popup anchored at
(1900, 500) stays at x = 1900, so its right edge 2099 is beyond the desktop's right
edge 1919: the horizontal test compares against `width()`, not `right()`. On a
desktop at the origin, a popup as high as the desktop is moved to y = -1, above the
top: the vertical test uses `bottom()`, which is `top() + height() - 1`. -/
theorem buttonPressedPos_outside :
    buttonPressedPos { left := -1920, top := 0, width := 3840, height := 1080 }
        { x := 1900, y := 500 } { width := 200, height := 100 } = { x := 1900, y := 500 }
    ∧ ¬ insideDesktop { left := -1920, top := 0, width := 3840, height := 1080 }
        (buttonPressedPos { left := -1920, top := 0, width := 3840, height := 1080 }
          { x := 1900, y := 500 } { width := 200, height := 100 })
        { width := 200, height := 100 }
    ∧ buttonPressedPos { left := 0, top := 0, width := 1000, height := 800 }
        { x := 10, y := 0 } { width := 200, height := 800 } = { x := 10, y := -1 }
    ∧ ¬ insideDesktop { left := 0, top := 0, width := 1000, height := 800 }
        (buttonPressedPos { left := 0, top := 0, width := 1000, height := 800 }
          { x := 10, y := 0 } { width := 200, height := 800 })
        { width := 200, height := 800 } := by
  refine ⟨by decide, ?_, by decide, ?_⟩
  · unfold insideDesktop
    decide
  · unfold insideDesktop
    decide

/-! ## Confirming on a regenerated grid -/

theorem setSelectedAt_getElem (l : List ColorPickerItem) (e : Nat) (b : Bool) (j : Nat) :
    (setSelectedAt l e b)[j]? =
      if j = e then (l[j]?).map (fun x => { x with sel := b }) else l[j]? := by
  induction l generalizing e j with
  | nil => simp [setSelectedAt]
  | cons y ys ih =>
    cases e with
    | zero =>
      cases j with
      | zero => simp [setSelectedAt]
      | succ j => simp [setSelectedAt]
    | succ e =>
      cases j with
      | zero => simp [setSelectedAt]
      | succ j => simp [setSelectedAt, ih]

theorem deselectOthers_map_key (keep : Nat) (ws : List Widget) (items : List ColorPickerItem) :
    (deselectOthers keep ws items).map entryKey = items.map entryKey := by
  induction ws generalizing items with
  | nil => rfl
  | cons w ws ih =>
    cases w with
    | more => exact ih items
    | item j =>
      simp only [deselectOthers]
      rw [ih]
      split_ifs
      · exact setSelectedAt_map_key _ _ _
      · rfl

theorem deselectOthers_getElem (keep : Nat) (ws : List Widget) (items : List ColorPickerItem)
    (j : Nat) :
    (deselectOthers keep ws items)[j]? =
      if j ≠ keep ∧ Widget.item j ∈ ws then
        (items[j]?).map (fun x => { x with sel := false })
      else items[j]? := by
  induction ws generalizing items with
  | nil => simp [deselectOthers]
  | cons w ws ih =>
    cases w with
    | more =>
      simp only [deselectOthers]
      rw [ih]
      simp
    | item j' =>
      simp only [deselectOthers]
      rw [ih]
      by_cases hk : j' = keep
      · subst hk
        simp only [ne_eq, not_true_eq_false, if_false, List.mem_cons, Widget.item.injEq]
        by_cases hj : j = j'
        · simp [hj]
        · simp [hj]
      · rw [if_pos hk, setSelectedAt_getElem]
        by_cases hj : j = j'
        · subst hj
          simp only [if_true, List.mem_cons, true_or, and_true, ne_eq, hk, not_false_eq_true,
            true_and]
          split_ifs <;> cases items[j]? <;> simp
        · simp [hj]

theorem regenerateGrid_widgets (p : ColorPickerPopup) :
    p.regenerateGrid.grid.widgets =
      (List.range p.items.length).map Widget.item
        ++ (if p.moreButton = true then [Widget.more] else []) := by
  have hp := placed_items (gridColumns p.cols p.items.length) p.items
  have hw := hp.2.2.2.2.2
  show (placeMore p.moreButton _).grid.widgets = _
  unfold placeMore
  cases p.moreButton with
  | false => simpa using hw
  | true => simp [QGridLayout.addWidget, hw]

theorem confirm_items (items : List ColorPickerItem) (ws : List Widget) (i : Nat)
    (e : ColorPickerItem) (he : items[i]? = some e)
    (hws : ∀ j, j < items.length → Widget.item j ∈ ws) :
    (deselectOthers i ws (setSelectedAt items i true))[i]? = some { e with sel := true }
    ∧ ∀ j x, (deselectOthers i ws (setSelectedAt items i true))[j]? = some x →
        (x.sel = true ↔ j = i) := by
  constructor
  · rw [deselectOthers_getElem, if_neg (by simp), setSelectedAt_getElem, if_pos rfl, he]
    rfl
  · intro j x hx
    rw [deselectOthers_getElem, setSelectedAt_getElem] at hx
    by_cases hj : j = i
    · subst hj
      rw [if_neg (by simp), if_pos rfl, he] at hx
      simp only [Option.map_some', Option.some.injEq] at hx
      subst hx
      simp
    · rw [if_neg hj] at hx
      have hlt : j < items.length := by
        by_contra hge
        push_neg at hge
        rw [List.getElem?_eq_none hge] at hx
        simp at hx
      rw [if_pos ⟨hj, hws j hlt⟩] at hx
      cases hy : items[j]? with
      | none => simp [hy] at hx
      | some y =>
        simp only [hy, Option.map_some', Option.some.injEq] at hx
        subst hx
        simp [hj]




theorem confirmed_of_items (q : ColorPickerPopup) (i : Nat) (e : ColorPickerItem)
    (items1 : List ColorPickerItem)
    (hkey : items1.map entryKey = q.items.map entryKey)
    (hi : items1[i]? = some { e with sel := true })
    (hsel : ∀ j x, items1[j]? = some x → (x.sel = true ↔ j = i)) :
    Confirmed q i e
      (if q.isPopup = true then
        ColorPickerPopup.hide { q with items := items1, lastSel := e.c }
       else { q with items := items1, lastSel := e.c })
      [e.c] := by
  unfold Confirmed
  cases hp : q.isPopup with
  | false =>
    rw [if_neg Bool.false_ne_true]
    exact ⟨hkey, hsel, ⟨_, hi, rfl, rfl⟩, rfl, rfl, fun h => absurd h (by simp),
      fun _ => rfl⟩
  | true =>
    rw [if_pos rfl]
    exact ⟨hkey, hsel, ⟨_, hi, rfl, rfl⟩, rfl, rfl, fun _ => rfl,
      fun h => absurd h (by simp)⟩

/-- C11. On a regenerated grid, when the cursor cell holds the entry `e` of index
`i`, pressing Space, Return or Enter there, and likewise clicking `e`, keeps the
entries, leaves `e` selected and every other entry deselected, makes
`lastSelected()` the colour of `e`, emits `selected` once with that colour, and
hides the popup exactly when it is in popup mode. -/
theorem confirm_selects (p : ColorPickerPopup) (key : Key) (r k i : Nat)
    (hkey : key = Key.Key_Space ∨ key = Key.Key_Return ∨ key = Key.Key_Enter)
    (hcell : p.regenerateGrid.widgetAt r k = some (Widget.item i)) :
    ∃ e, p.regenerateGrid.items[i]? = some e
      ∧ Confirmed p.regenerateGrid i e (p.regenerateGrid.keyPressEvent key r k).popup
          (p.regenerateGrid.keyPressEvent key r k).emitted
      ∧ Confirmed p.regenerateGrid i e (p.regenerateGrid.itemClicked i).1
          (p.regenerateGrid.itemClicked i).2 := by
  have hitems : p.regenerateGrid.items = p.items := rfl
  have hi : i < p.items.length := by
    have h := hcell
    rw [regenerateGrid_cells] at h
    split_ifs at h with h1 h2
    · simp only [Option.some.injEq, Widget.item.injEq] at h
      omega
    · simp at h
  obtain ⟨e, he⟩ : ∃ e, p.items[i]? = some e := ⟨p.items[i], List.getElem?_eq_getElem hi⟩
  have hws : ∀ j, j < p.items.length → Widget.item j ∈ p.regenerateGrid.grid.widgets := by
    intro j hj
    rw [regenerateGrid_widgets]
    exact List.mem_append_left _ (List.mem_map.mpr ⟨j, List.mem_range.mpr hj, rfl⟩)
  obtain ⟨h1, h2⟩ := confirm_items p.items p.regenerateGrid.grid.widgets i e he hws
  have hk : (deselectOthers i p.regenerateGrid.grid.widgets
      (setSelectedAt p.items i true)).map entryKey = p.items.map entryKey := by
    rw [deselectOthers_map_key, setSelectedAt_map_key]
  have hconf := confirmed_of_items p.regenerateGrid i e _ hk h1 h2
  have hcc : confirmCell p.regenerateGrid r k =
      (if p.regenerateGrid.isPopup = true then
        ColorPickerPopup.hide { p.regenerateGrid with
          items := deselectOthers i p.regenerateGrid.grid.widgets
            (setSelectedAt p.items i true), lastSel := e.c }
       else { p.regenerateGrid with
          items := deselectOthers i p.regenerateGrid.grid.widgets
            (setSelectedAt p.items i true), lastSel := e.c }, [e.c]) := by
    unfold confirmCell
    simp only [hcell, hitems, List.get?_eq_getElem?, h1]
  have hclick : p.regenerateGrid.itemClicked i =
      (if p.regenerateGrid.isPopup = true then
        ColorPickerPopup.hide { p.regenerateGrid with
          items := deselectOthers i p.regenerateGrid.grid.widgets
            (setSelectedAt p.items i true), lastSel := e.c }
       else { p.regenerateGrid with
          items := deselectOthers i p.regenerateGrid.grid.widgets
            (setSelectedAt p.items i true), lastSel := e.c }, [e.c]) := by
    unfold ColorPickerPopup.itemClicked ColorPickerPopup.updateSelected
    simp only [hitems, List.get?_eq_getElem?, h1]
  have hkp : (p.regenerateGrid.keyPressEvent key r k).popup = (confirmCell p.regenerateGrid r k).1
      ∧ (p.regenerateGrid.keyPressEvent key r k).emitted
          = (confirmCell p.regenerateGrid r k).2 := by
    rcases hkey with h | h | h <;> subst h <;> exact ⟨rfl, rfl⟩
  refine ⟨e, he, ?_, ?_⟩
  · rw [hkp.1, hkp.2, hcc]
    exact hconf
  · rw [hclick]
    exact hconf

/-- C11 on the popup that `getColor` builds: with the focus on "Dark red", in cell
(0, 3), Return selects it; `getColor` then returns dark red and the popup is hidden. -/
theorem confirm_selects_witness :
    ((getColorPopup false true).regenerateGrid.widgetAt 0 3 = some (Widget.item 3))
    ∧ (∃ e, (getColorPopup false true).regenerateGrid.items[3]? = some e
        ∧ Confirmed (getColorPopup false true).regenerateGrid 3 e
            ((getColorPopup false true).regenerateGrid.keyPressEvent Key.Key_Return 0 3).popup
            ((getColorPopup false true).regenerateGrid.keyPressEvent Key.Key_Return 0 3).emitted
        ∧ Confirmed (getColorPopup false true).regenerateGrid 3 e
            ((getColorPopup false true).regenerateGrid.itemClicked 3).1
            ((getColorPopup false true).regenerateGrid.itemClicked 3).2)
    ∧ (getColorPopup false true).items[3]?
        = some { c := darkRed, t := "Dark red", sel := false }
    ∧ getColor false true [UserEvent.key Key.Key_Return 0 3] = darkRed
    ∧ ((getColorPopup false true).exec [UserEvent.key Key.Key_Return 0 3]).shown = false :=
  ⟨by decide,
   confirm_selects (getColorPopup false true) Key.Key_Return 0 3 3 (Or.inr (Or.inl rfl))
     (by decide),
   by decide, by decide, by decide⟩




/-! ## Every reachable popup carries a regenerated grid -/

theorem placeItems_length_congr (columns : Int) (l l' : List ColorPickerItem)
    (h : l.length = l'.length) (i : Nat) (s : GridCursor) :
    placeItems columns l i s = placeItems columns l' i s := by
  induction l generalizing l' i s with
  | nil =>
    cases l' with
    | nil => rfl
    | cons _ _ => simp at h
  | cons y ys ih =>
    cases l' with
    | nil => simp at h
    | cons z zs =>
      simp only [placeItems]
      exact ih zs (by simpa using h) _ _

theorem gridCurrent_regenerateGrid (p : ColorPickerPopup) : GridCurrent p.regenerateGrid :=
  ⟨rfl, rfl⟩

theorem regenerateGrid_eq_of_gridCurrent (q : ColorPickerPopup) (h : GridCurrent q) :
    q.regenerateGrid = q := by
  obtain ⟨h1, h2⟩ := h
  cases q
  simp only [ColorPickerPopup.regenerateGrid] at h1 h2 ⊢
  congr 1
  · exact h1.symm
  · exact h2.symm

theorem gridCurrent_of_same (q q' : ColorPickerPopup) (h : GridCurrent q)
    (hc : q'.cols = q.cols) (hm : q'.moreButton = q.moreButton)
    (hl : q'.items.length = q.items.length) (hw : q'.widgetAt = q.widgetAt)
    (hg : q'.grid = q.grid) : GridCurrent q' := by
  have hreg : q'.regenerateGrid.widgetAt = q.regenerateGrid.widgetAt
      ∧ q'.regenerateGrid.grid = q.regenerateGrid.grid := by
    unfold ColorPickerPopup.regenerateGrid
    simp only [hc, hm, hl]
    rw [placeItems_length_congr _ q'.items q.items hl]
    exact ⟨rfl, rfl⟩
  exact ⟨by rw [hw, hreg.1]; exact h.1, by rw [hg, hreg.2]; exact h.2⟩

theorem deselectOthers_length (keep : Nat) (ws : List Widget) (items : List ColorPickerItem) :
    (deselectOthers keep ws items).length = items.length := by
  have := congrArg List.length (deselectOthers_map_key keep ws items)
  simpa using this

theorem gridCurrent_new (width : Int) (withColorDialog isPopup : Bool) :
    GridCurrent (ColorPickerPopup.new width withColorDialog isPopup) :=
  gridCurrent_regenerateGrid _

theorem gridCurrent_insertColor (q : ColorPickerPopup) (col : QColor) (text : String)
    (index : Int) (h : GridCurrent q) : GridCurrent (q.insertColor col text index) := by
  unfold ColorPickerPopup.insertColor
  cases q.find col with
  | some e =>
    simp only []
    refine gridCurrent_of_same q _ h rfl rfl ?_ rfl rfl
    simp only [setSelectedAt_length]
    split
    · split_ifs
      · exact setSelectedAt_length _ _ _
      · rfl
    · rfl
  | none =>
    simp only []
    split <;> exact gridCurrent_regenerateGrid _

theorem gridCurrent_confirmCell (q : ColorPickerPopup) (r k : Nat) (h : GridCurrent q) :
    GridCurrent (confirmCell q r k).1 := by
  unfold confirmCell
  cases q.widgetAt r k with
  | none => exact h
  | some w =>
    cases w with
    | more => exact h
    | item i =>
      dsimp only
      cases (deselectOthers i q.grid.widgets (setSelectedAt q.items i true)).get? i with
      | none => exact h
      | some wi =>
        dsimp only
        split_ifs
        · exact gridCurrent_of_same q _ h rfl rfl
            (by simp [ColorPickerPopup.hide, deselectOthers_length, setSelectedAt_length])
            rfl rfl
        · exact gridCurrent_of_same q _ h rfl rfl
            (by simp [deselectOthers_length, setSelectedAt_length]) rfl rfl

theorem gridCurrent_itemClicked (q : ColorPickerPopup) (i : Nat) (h : GridCurrent q) :
    GridCurrent (q.itemClicked i).1 := by
  unfold ColorPickerPopup.itemClicked ColorPickerPopup.updateSelected
  dsimp only
  cases (deselectOthers i q.grid.widgets (setSelectedAt q.items i true)).get? i with
  | none =>
    dsimp only
    split_ifs <;>
      exact gridCurrent_of_same q _ h rfl rfl
        (by simp [ColorPickerPopup.hide, deselectOthers_length, setSelectedAt_length]) rfl rfl
  | some wi =>
    dsimp only
    split_ifs <;>
      exact gridCurrent_of_same q _ h rfl rfl
        (by simp [ColorPickerPopup.hide, deselectOthers_length, setSelectedAt_length]) rfl rfl

/-- Every popup reached from a freshly constructed one by insertions, key confirms
and clicks carries the grid `regenerateGrid` computes, so it is its own
`regenerateGrid`. -/
theorem runPopup_regenerated (width : Int) (withColorDialog isPopup : Bool)
    (ops : List PopupOp) :
    (runPopup (ColorPickerPopup.new width withColorDialog isPopup) ops).regenerateGrid
      = runPopup (ColorPickerPopup.new width withColorDialog isPopup) ops := by
  apply regenerateGrid_eq_of_gridCurrent
  have hgen : ∀ (q : ColorPickerPopup), GridCurrent q → GridCurrent (runPopup q ops) := by
    induction ops with
    | nil => intro q hq; exact hq
    | cons op rest ih =>
      intro q hq
      simp only [runPopup, List.foldl_cons]
      apply ih
      cases op with
      | insertColor c t i => exact gridCurrent_insertColor q c t i hq
      | confirmKey r k => exact gridCurrent_confirmCell q r k hq
      | click i => exact gridCurrent_itemClicked q i hq
  exact hgen _ (gridCurrent_new _ _ _)

/-! ## Single precision agrees with the exact root up to 2 ^ 24 -/

theorem bitLengthLoop_zero (fuel : Nat) : bitLengthLoop fuel 0 = 0 := by
  cases fuel <;> simp [bitLengthLoop]

theorem bitLengthLoop_spec (fuel n : Nat) (h : n ≤ fuel) :
    n < 2 ^ bitLengthLoop fuel n
    ∧ (n ≠ 0 → 1 ≤ bitLengthLoop fuel n ∧ 2 ^ (bitLengthLoop fuel n - 1) ≤ n) := by
  induction fuel generalizing n with
  | zero =>
    have : n = 0 := by omega
    subst this
    simp [bitLengthLoop]
  | succ fuel ih =>
    unfold bitLengthLoop
    by_cases hn : n = 0
    · subst hn
      simp
    · rw [if_neg hn]
      obtain ⟨h1, h2⟩ := ih (n / 2) (by omega)
      refine ⟨?_, fun _ => ⟨by omega, ?_⟩⟩
      · rw [Nat.pow_succ]
        omega
      · rw [Nat.add_sub_cancel]
        by_cases hh : n / 2 = 0
        · rw [hh, bitLengthLoop_zero]
          simp
          omega
        · obtain ⟨h3, h4⟩ := h2 hh
          have h5 : 2 ^ bitLengthLoop fuel (n / 2)
              = 2 ^ (bitLengthLoop fuel (n / 2) - 1) * 2 := by
            rw [← Nat.pow_succ]
            congr 1
            omega
          omega

theorem bitLength_spec (n : Nat) :
    n < 2 ^ bitLength n ∧ (n ≠ 0 → 1 ≤ bitLength n ∧ 2 ^ (bitLength n - 1) ≤ n) :=
  bitLengthLoop_spec n n (Nat.le_refl n)

theorem bitLength_le_of_lt (n b : Nat) (h : n < 2 ^ b) : bitLength n ≤ b := by
  by_contra hlt
  push_neg at hlt
  by_cases hn : n = 0
  · subst hn
    have : bitLength 0 = 0 := rfl
    omega
  · obtain ⟨-, h2⟩ := (bitLength_spec n).2 hn
    have := Nat.pow_le_pow_right (show 0 < 2 by omega) (show b ≤ bitLength n - 1 by omega)
    omega

theorem toFloat32_of_le (n : Nat) (h : n ≤ 2 ^ 24) : toFloat32 n = n := by
  rcases Nat.lt_or_ge n (2 ^ 24) with hlt | hge
  · unfold toFloat32
    rw [if_pos (bitLength_le_of_lt n 24 hlt)]
  · have : n = 16777216 := by
      have : (2 : Nat) ^ 24 = 16777216 := by norm_num
      omega
    subst this
    decide

theorem ceilSqrtFloat32_eq_ceilSqrt (n : Nat) (h : n ≤ 2 ^ 24) :
    ceilSqrtFloat32 n = ceilSqrt n := by
  unfold ceilSqrtFloat32
  simp only [toFloat32_of_le n h]
  by_cases hsq : ceilSqrt n * ceilSqrt n = n
  · rw [if_pos hsq]
  · rw [if_neg hsq]
    have hge := ceilSqrt_sq_ge n
    have hpos : 0 < ceilSqrt n := by
      rcases Nat.eq_zero_or_pos (ceilSqrt n) with h0 | h0
      · rw [h0] at hge hsq
        omega
      · exact h0
    have hpred := ceilSqrt_pred_sq_lt n hpos
    have hc : ceilSqrt n ≤ 4096 := ceilSqrt_le_of_sq_ge n 4096 (by
      have : (2 : Nat) ^ 24 = 4096 * 4096 := by norm_num
      omega)
    have hb : bitLength (ceilSqrt n - 1) ≤ 12 :=
      bitLength_le_of_lt _ 12 (by
        have : (2 : Nat) ^ 12 = 4096 := by norm_num
        omega)
    have hs := (bitLength_spec (ceilSqrt n - 1)).1
    generalize ceilSqrt n - 1 = s at *
    generalize hbdef : bitLength s = b at *
    have hk : 2 ^ (b + 1) ≤ 2 ^ (25 - b) :=
      Nat.pow_le_pow_right (by omega) (by omega)
    have hk2 : 2 * s + 1 ≤ 2 ^ (25 - b) := by
      rw [Nat.pow_succ] at hk
      omega
    generalize 2 ^ (25 - b) = k at *
    rw [if_neg]
    push_neg
    have h1 : (s * s + 1) * (k * k) ≤ n * (k * k) := Nat.mul_le_mul_right _ (by omega)
    have h2 : (2 * s + 1) * k ≤ k * k := Nat.mul_le_mul_right _ hk2
    have h3 : (s * k + 1) * (s * k + 1) + k = (s * s) * (k * k) + (2 * s + 1) * k + 1 := by
      ring
    have h4 : (s * s + 1) * (k * k) = (s * s) * (k * k) + k * k := by ring
    omega

/-! ## Squareness of the automatic grid in single precision -/

theorem manyItems_length (n : Nat) : (manyItems n).length = n := by
  induction n with
  | zero => rfl
  | succ n ih => simp [manyItems, ih]

theorem gridColumns_gridColumnsFloat32 (cols : Int) (n : Nat) :
    gridColumns (gridColumnsFloat32 cols n) n = gridColumnsFloat32 cols n := by
  have hne : gridColumnsFloat32 cols n ≠ -1 := by
    unfold gridColumnsFloat32
    split_ifs with h
    · intro hx
      have := Int.ofNat_nonneg (ceilSqrtFloat32 n)
      omega
    · exact h
  unfold gridColumns
  rw [if_neg hne]

/-- The single-precision grid of a popup is the grid `regenerateGrid` computes once
the single-precision column count is taken as the configured one. -/
theorem regenerateGridFloat32_grid (p : ColorPickerPopup) :
    p.regenerateGridFloat32.widgetAt
        = (ColorPickerPopup.regenerateGrid
            { p with cols := gridColumnsFloat32 p.cols p.items.length }).widgetAt
    ∧ p.regenerateGridFloat32.grid
        = (ColorPickerPopup.regenerateGrid
            { p with cols := gridColumnsFloat32 p.cols p.items.length }).grid := by
  unfold ColorPickerPopup.regenerateGridFloat32 ColorPickerPopup.regenerateGrid
  refine ⟨?_, ?_⟩ <;> simp only [gridColumns_gridColumnsFloat32]

theorem entryRows_congr (q q' : ColorPickerPopup) (hw : q.widgetAt = q'.widgetAt)
    (hg : q.grid = q'.grid) : entryRows q = entryRows q' := by
  unfold entryRows
  rw [hw, hg]

/-- The rows that hold entries in the single-precision grid, from the column count
`c ≥ 1` it wraps at. -/
theorem entryRows_regenerateGridFloat32 (p : ColorPickerPopup) (c t : Nat) (hc : 1 ≤ c)
    (hcols : gridColumnsFloat32 p.cols p.items.length = (c : Int))
    (ht : ∀ r, r < t ↔ r * c < p.items.length) :
    entryRows p.regenerateGridFloat32 = t := by
  obtain ⟨hw, hg⟩ := regenerateGridFloat32_grid p
  rw [entryRows_congr _ _ hw hg]
  apply entryRows_regenerateGrid
  intro r
  show r < t ↔ r * wrapColumn
    (gridColumns (gridColumnsFloat32 p.cols p.items.length) p.items.length) p.items.length
      < p.items.length
  rw [gridColumns_gridColumnsFloat32, hcols, wrapColumn_of_pos c _ hc]
  exact ht r

theorem ceilSqrt_two_pow_24 : ceilSqrt 16777216 = 4096 := by
  apply Nat.le_antisymm
  · exact ceilSqrt_le_of_sq_ge 16777216 4096 (by norm_num)
  · by_contra hlt
    push_neg at hlt
    have h1 := ceilSqrt_sq_ge 16777216
    have h2 : ceilSqrt 16777216 * ceilSqrt 16777216 ≤ 4095 * 4095 :=
      Nat.mul_le_mul (by omega) (by omega)
    omega

theorem ceilSqrtFloat32_two_pow_24_succ : ceilSqrtFloat32 16777217 = 4096 := by
  have hx : toFloat32 16777217 = 16777216 := by decide
  unfold ceilSqrtFloat32
  simp only [hx, ceilSqrt_two_pow_24]
  rw [if_pos (by norm_num)]

/-- C5 fails at 16777217 entries: with automatic columns the single-precision column
count is 4096 (the conversion to `float` rounds the count to 16777216), and the
entries fill 4097 rows, more rows than columns. -/
theorem auto_grid_not_square_float32 :
    (manyPopup 16777217).cols = -1
    ∧ (manyPopup 16777217).items.length = 16777217
    ∧ gridColumnsFloat32 (manyPopup 16777217).cols (manyPopup 16777217).items.length = 4096
    ∧ entryRows (manyPopup 16777217).regenerateGridFloat32 = 4097
    ∧ ¬ ((entryRows (manyPopup 16777217).regenerateGridFloat32 : Int)
          ≤ gridColumnsFloat32 (manyPopup 16777217).cols
              (manyPopup 16777217).items.length) := by
  have hlen : (manyPopup 16777217).items.length = 16777217 := manyItems_length _
  have hcols : (manyPopup 16777217).cols = -1 := rfl
  have hg : gridColumnsFloat32 (manyPopup 16777217).cols (manyPopup 16777217).items.length
      = ((4096 : Nat) : Int) := by
    rw [hlen, hcols]
    unfold gridColumnsFloat32
    rw [if_pos rfl, ceilSqrtFloat32_two_pow_24_succ]
  have hrows : entryRows (manyPopup 16777217).regenerateGridFloat32 = 4097 := by
    apply entryRows_regenerateGridFloat32 _ 4096 4097 (by omega) hg
    intro r
    rw [hlen]
    omega
  refine ⟨hcols, hlen, by rw [hg]; rfl, hrows, ?_⟩
  rw [hrows, hg]
  norm_num

/-- C5, amended. With automatic columns and between 1 and 2 ^ 24 = 16777216 entries,
the number of rows that hold entries in the grid computed in single precision is at
most the computed column count, and falls short of it by at most one. -/
theorem auto_grid_square_float32 (p : ColorPickerPopup) (hcols : p.cols = -1)
    (hn : 1 ≤ p.items.length) (hmax : p.items.length ≤ 16777216) :
    gridColumnsFloat32 p.cols p.items.length = (ceilSqrtFloat32 p.items.length : Int)
    ∧ entryRows p.regenerateGridFloat32 ≤ ceilSqrtFloat32 p.items.length
    ∧ ceilSqrtFloat32 p.items.length ≤ entryRows p.regenerateGridFloat32 + 1 := by
  have hg : gridColumnsFloat32 p.cols p.items.length
      = (ceilSqrtFloat32 p.items.length : Int) := by
    simp [gridColumnsFloat32, hcols]
  have hexact : ceilSqrtFloat32 p.items.length = ceilSqrt p.items.length :=
    ceilSqrtFloat32_eq_ceilSqrt _ (by
      have : (2 : Nat) ^ 24 = 16777216 := by norm_num
      omega)
  have hsq := ceilSqrt_sq_ge p.items.length
  have hpos : 1 ≤ ceilSqrt p.items.length := by
    rcases Nat.eq_zero_or_pos (ceilSqrt p.items.length) with h0 | h0
    · rw [h0] at hsq
      omega
    · exact h0
  obtain ⟨ht, hle, hge⟩ := rows_of_ceilSqrt p.items.length (ceilSqrt p.items.length) hpos hsq
    (ceilSqrt_pred_sq_lt p.items.length hpos)
  have hrows : entryRows p.regenerateGridFloat32
      = (p.items.length + ceilSqrt p.items.length - 1) / ceilSqrt p.items.length :=
    entryRows_regenerateGridFloat32 p _ _ hpos (by rw [hg, hexact]) ht
  rw [hrows, hexact]
  exact ⟨by rw [hg, hexact], hle, hge⟩

/-- C5, amended, on three entries: two columns are computed in single precision and
two rows hold entries. -/
theorem auto_grid_square_float32_witness :
    ((runPopup (ColorPickerPopup.new (-1) false true)
        [PopupOp.insertColor black "Black" (-1), PopupOp.insertColor white "White" (-1),
         PopupOp.insertColor red "Red" (-1)]).cols = -1
      ∧ 1 ≤ (runPopup (ColorPickerPopup.new (-1) false true)
        [PopupOp.insertColor black "Black" (-1), PopupOp.insertColor white "White" (-1),
         PopupOp.insertColor red "Red" (-1)]).items.length
      ∧ (runPopup (ColorPickerPopup.new (-1) false true)
        [PopupOp.insertColor black "Black" (-1), PopupOp.insertColor white "White" (-1),
         PopupOp.insertColor red "Red" (-1)]).items.length ≤ 16777216)
    ∧ entryRows (runPopup (ColorPickerPopup.new (-1) false true)
        [PopupOp.insertColor black "Black" (-1), PopupOp.insertColor white "White" (-1),
         PopupOp.insertColor red "Red" (-1)]).regenerateGridFloat32 ≤ ceilSqrtFloat32 3
    ∧ ceilSqrtFloat32 3 = 2
    ∧ entryRows (runPopup (ColorPickerPopup.new (-1) false true)
        [PopupOp.insertColor black "Black" (-1), PopupOp.insertColor white "White" (-1),
         PopupOp.insertColor red "Red" (-1)]).regenerateGridFloat32 = 2 :=
  ⟨⟨by decide, by decide, by decide⟩,
   (auto_grid_square_float32 _ (by decide) (by decide) (by decide)).2.1,
   by decide, by decide⟩

end QtPublicCtrl
